import Mathlib

/-!
# VLC interruption core (`src/misc/interrupt.c`)

A shallow embedding of the interruption context, the arm/disarm handshake
(`vlc_interrupt_prepare` / `vlc_interrupt_finish`), `vlc_interrupt_raise` and the
POSIX interruptible wrappers built on them.

Modelling conventions.

* One interruption context lives in the world; the calling thread's thread-local
  slot either points at it (`attached = true`) or holds `NULL`.
* Every transition of the context happens under `ctx->lock`, so calls by other
  threads are interleaved atomically; the lock itself is not represented.
* `assert`s are preconditions: they appear as hypotheses of the theorems that need
  them, not in the definitions.
* Cancellation of the calling thread is represented at the two explicit
  `vlc_testcancel()` calls of `vlc_poll_i11e_inner`: when the environment has a
  cancellation request pending there, the thread leaves at the test, `World.cancelled`
  is set and nothing after the test runs. Elsewhere the thread is not cancelled:
  `vlc_savecancel` and `vlc_restorecancel` have no effect on the state, and the
  `vlc_testcancel()` of `vlc_sem_wait_i11e`, where nothing is held, is recorded in the
  trace only.
* System calls and hook invocations are recorded, in order, in `World.trace`; their
  results come from an environment `Env`.
* C arrays are lists, array bounds are not represented; `unsigned` arithmetic is
  reduced modulo `2 ^ 32`.
* The process-wide state (`vlc_interrupt_refs`, the thread-local slot, the binding of
  the calling thread) is the structure `Process`, with contexts named by address.

The HTTP connection manager (`modules/access/http/connmgr.c`) has its own namespace,
`ConnMgr`.
-/

namespace Interrupt

/-! ## Platform constants (Linux values of `<errno.h>`, `<poll.h>`, `<limits.h>`) -/

/-- Value of `EINTR`. -/
def EINTR : Int := 4

/-- Value of `ENOMEM`. -/
def ENOMEM : Int := 12

/-- Value of `POLLIN`. -/
def POLLIN : Int := 1

/-- Value of `POLLOUT`. -/
def POLLOUT : Int := 4

/-- Value of `UINT_MAX` for a 32-bit `unsigned`. -/
def UINT_MAX : Nat := 4294967295

/-! ## Data model -/

/-- Function pointers that can be registered as wake hook: the two hooks defined in
`interrupt.c`, or any other function (identified by a number). -/
inductive Callback where
  | vlc_interrupt_sem
  | vlc_poll_i11e_wake
  | other (id : Nat)
  deriving DecidableEq

/-- The `void *` argument of a hook: `NULL`, the semaphore of the world, the
two-element descriptor array `fd[2]` of a poll call (by content), or any other
pointer. -/
inductive Data where
  | null
  | sem
  | fd (fd0 fd1 : Int)
  | ptr (addr : Nat)
  deriving DecidableEq

/-- The type `struct vlc_interrupt` without its lock: `callback = none` is the C
`NULL`, that is, no hook installed. -/
structure vlc_interrupt_t where
  interrupted : Bool
  callback : Option Callback
  data : Data
  deriving DecidableEq

/-- The type `struct iovec`: base address and length. -/
structure iovec where
  iov_base : Nat
  iov_len : Nat
  deriving DecidableEq

/-- The type `struct msghdr`, with the fields the wrappers set (`msg_name = 0` is
`NULL`); the other fields are zero. -/
structure msghdr where
  msg_name : Nat
  msg_namelen : Nat
  msg_iov : List iovec
  msg_iovlen : Nat
  deriving DecidableEq

/-- The type `struct pollfd`. -/
structure pollfd where
  fd : Int
  events : Int
  revents : Int
  deriving DecidableEq

/-- Observable actions, in the order they happen. -/
inductive Event where
  | hook (cb : Callback) (data : Data)
  | sem_wait
  | sem_post
  | testcancel
  | eventfd (res : Int)
  | pipe (res : Option (Int × Int))
  | poll (ufd : List (Int × Int)) (nfds : Nat) (timeout : Int)
  | read (fd : Int) (len : Nat)
  | write (fd : Int) (len : Nat)
  | close (fd : Int)
  | malloc (entries : Nat) (ok : Bool)
  | free
  | readv (fd : Int) (iov : List iovec) (count : Int)
  | writev (fd : Int) (iov : List iovec) (count : Int)
  | recvmsg (fd : Int) (msg : msghdr) (flags : Int)
  | sendmsg (fd : Int) (msg : msghdr) (flags : Int)
  deriving DecidableEq

/-- State seen by the calling thread: the context, whether the thread-local slot
points at it, the value of the semaphore, `errno`, the trace, and whether the thread
acted on a cancellation request inside a call (it then left the call without
returning). -/
structure World where
  ctx : vlc_interrupt_t
  attached : Bool
  sem : Nat
  errno : Int
  trace : List Event
  cancelled : Bool
  deriving DecidableEq

/-- Appends an event to the trace. -/
def World.log (w : World) (e : Event) : World :=
  { w with trace := w.trace ++ [e] }

/-- The hook invocations of a trace, in order. -/
def hook_calls : List Event → List (Callback × Data)
  | [] => []
  | Event.hook cb data :: es => (cb, data) :: hook_calls es
  | _ :: es => hook_calls es

/-! ## Arm/disarm protocol -/

/-- Embedding of `vlc_interrupt_prepare` (interrupt.c:159-182): returns `EINTR` and
clears the flag if an interruption is pending, else installs the hook. -/
def vlc_interrupt_prepare (ctx : vlc_interrupt_t) (cb : Callback) (data : Data) :
    Int × vlc_interrupt_t :=
  if ctx.interrupted then
    (EINTR, { ctx with interrupted := false })
  else
    (0, { ctx with callback := some cb, data := data })

/-- Embedding of `vlc_interrupt_finish` (interrupt.c:195-212): removes the hook,
then reports and clears a pending interruption. -/
def vlc_interrupt_finish (ctx : vlc_interrupt_t) : Int × vlc_interrupt_t :=
  let ctx1 := { ctx with callback := none }
  if ctx1.interrupted then
    (EINTR, { ctx1 with interrupted := false })
  else
    (0, ctx1)

/-- Embedding of `vlc_sem_post` on the semaphore of the world. -/
def vlc_sem_post (w : World) : World :=
  { w with sem := w.sem + 1, trace := w.trace ++ [Event.sem_post] }

/-- Embedding of `vlc_interrupt_sem` (interrupt.c:219-222). -/
def vlc_interrupt_sem (w : World) : World :=
  vlc_sem_post w

/-- Embedding of `vlc_poll_i11e_wake` (interrupt.c:245-254): writes the 8-byte value
to `fd[1]`. -/
def vlc_poll_i11e_wake (fd1 : Int) (w : World) : World :=
  w.log (Event.write fd1 8)

/-- The call `ctx->callback(ctx->data)`: recorded in the trace, then the body of the
hook runs. A hook other than the two of `interrupt.c` acts outside the world. -/
def invoke (cb : Callback) (data : Data) (w : World) : World :=
  let w1 := w.log (Event.hook cb data)
  match cb, data with
  | Callback.vlc_interrupt_sem, Data.sem => vlc_interrupt_sem w1
  | Callback.vlc_poll_i11e_wake, Data.fd _ fd1 => vlc_poll_i11e_wake fd1 w1
  | _, _ => w1

/-- Embedding of `vlc_interrupt_raise` (interrupt.c:114-127): sets the flag, then
invokes the hook if one is installed. -/
def vlc_interrupt_raise (w : World) : World :=
  let w1 := { w with ctx := { w.ctx with interrupted := true } }
  match w1.ctx.callback with
  | some cb => invoke cb w1.ctx.data w1
  | none => w1

/-- The sequence of `k` calls of `vlc_interrupt_raise`. -/
def raise_times : Nat → World → World
  | 0, w => w
  | k + 1, w => raise_times k (vlc_interrupt_raise w)

/-- The call `vlc_interrupt_prepare(ctx, cb, data)` on the context of the world. -/
def World.prepare (w : World) (cb : Callback) (data : Data) : Int × World :=
  ((vlc_interrupt_prepare w.ctx cb data).1,
   { w with ctx := (vlc_interrupt_prepare w.ctx cb data).2 })

/-- The call `vlc_interrupt_finish(ctx)` on the context of the world. -/
def World.finish (w : World) : Int × World :=
  ((vlc_interrupt_finish w.ctx).1, { w with ctx := (vlc_interrupt_finish w.ctx).2 })

/-! ## Environment -/

/-- Outcome of the underlying `poll`: return value, the `revents` field of entry `i`
of the polled array after the call, and the `errno` it sets when it fails. -/
structure PollResult where
  ret : Int
  revents : Nat → Int
  errno : Int

/-- Outcome of an underlying transfer system call: return value, and the `errno` it
sets when it fails. -/
structure SysResult where
  ret : Int
  errno : Int
  deriving DecidableEq

/-- What the operating system and the other threads do during one call of a wrapper.

* `have_eventfd`: the build has `HAVE_SYS_EVENTFD_H` and `EFD_CLOEXEC`;
* `eventfd`: result of `eventfd(0, EFD_CLOEXEC)` (`-1` on failure);
* `pipe`: the two ends given by `vlc_pipe`, `none` when it fails;
* `malloc_ok`: whether `malloc` of the extended array succeeds;
* `cancel_at_testcancel`: a cancellation request is pending for the calling thread
  when `vlc_poll_i11e_inner` reaches an explicit `vlc_testcancel()`;
* `poll`: the underlying `poll`, as a function of the entries `(fd, events)`, the
  entry count and the timeout;
* `raises`: number of `vlc_interrupt_raise` calls by other threads that take the
  context lock between `prepare` and `finish` of this call;
* `posts`: number of `vlc_sem_post` calls by other threads during a semaphore wait;
* `readv`, `writev`, `recvmsg`, `sendmsg`: the underlying system calls (`recvmsg`
  also gives the `msg_namelen` it stores). -/
structure Env where
  have_eventfd : Bool
  eventfd : Int
  pipe : Option (Int × Int)
  malloc_ok : Bool
  cancel_at_testcancel : Bool
  poll : List (Int × Int) → Nat → Int → PollResult
  raises : Nat
  posts : Nat
  readv : Int → List iovec → Int → SysResult
  writev : Int → List iovec → Int → SysResult
  recvmsg : Int → msghdr → Int → SysResult × Nat
  sendmsg : Int → msghdr → Int → SysResult

/-- A failing system call stores its error code in `errno`. -/
def World.set_errno_on_failure (w : World) (ret errno : Int) : World :=
  if ret < 0 then { w with errno := errno } else w

/-- The loop `for (i = 0; i < nfds; i++) fds[i].revents = ufd[i].revents`, entry `i`
of the list being entry `start + i` of the polled array. -/
def copy_revents (revents : Nat → Int) : Nat → List pollfd → List pollfd
  | _, [] => []
  | start, p :: ps => { p with revents := revents start } :: copy_revents revents (start + 1) ps

/-- Number of entries `i < n` of the polled array with non-zero `revents`. -/
def count_ready (revents : Nat → Int) : Nat → Nat
  | 0 => 0
  | n + 1 => count_ready revents n + (if revents n ≠ 0 then 1 else 0)

/-- Number of entries of a caller array with non-zero `revents`. -/
def ready_entries (fds : List pollfd) : Nat :=
  (fds.filter (fun p => p.revents ≠ 0)).length

/-- The extended array built by `vlc_poll_i11e_inner` (interrupt.c:291-297): the
caller's `fd` and `events`, then the read end of the wake object with `POLLIN`. -/
def extended_array (fds : List pollfd) (fd0 : Int) : List (Int × Int) :=
  fds.map (fun p => (p.fd, p.events)) ++ [(fd0, POLLIN)]

/-- Embedding of the allocation of the wake object at the head of
`vlc_poll_i11e_inner` (interrupt.c:276-289): the pair `(fd[0], fd[1])`, or `none` when
`vlc_pipe` fails, and the system calls made. An eventfd is both ends. -/
def wake_object (env : Env) : Option (Int × Int) × List Event :=
  if env.have_eventfd = true then
    if env.eventfd ≠ -1 then
      (some (env.eventfd, env.eventfd), [Event.eventfd env.eventfd])
    else
      (env.pipe, [Event.eventfd env.eventfd, Event.pipe env.pipe])
  else
    (env.pipe, [Event.pipe env.pipe])

/-- The closing sequence at the label `out` of `vlc_poll_i11e_inner`
(interrupt.c:327-331): `fd[1]` when it differs from `fd[0]`, then `fd[0]`. -/
def close_wake (fd0 fd1 : Int) (w : World) : World :=
  (if fd1 ≠ fd0 then w.log (Event.close fd1) else w).log (Event.close fd0)

/-- Embedding of `vlc_poll_i11e_inner` (interrupt.c:267-333); `nfds` is the length of
the caller array `fds`. Returns the return value, the world and the caller array. The
raises of the environment land while the thread is inside `poll`. At each of the two
`vlc_testcancel()` calls (interrupt.c:286 and 301) a pending cancellation request makes
the thread leave: `cancelled` is set, nothing after the test runs (no `errno`, no close
of the wake object: no cleanup handler is pushed yet), and the value given is that of the
local `ret` at the test, -1. -/
def vlc_poll_i11e_inner (env : Env) (w : World) (fds : List pollfd) (timeout : Int) :
    Int × World × List pollfd :=
  let nfds := fds.length
  let w1 : World := { w with trace := w.trace ++ (wake_object env).2 }
  match (wake_object env).1 with
  | none =>
    if env.cancel_at_testcancel then
      (-1, { w1.log Event.testcancel with cancelled := true }, fds)
    else
      (-1, { w1.log Event.testcancel with errno := ENOMEM }, fds)
  | some (fd0, fd1) =>
    let ufd := extended_array fds fd0
    let r := w1.prepare Callback.vlc_poll_i11e_wake (Data.fd fd0 fd1)
    if r.1 ≠ 0 then
      if env.cancel_at_testcancel then
        (-1, { r.2.log Event.testcancel with cancelled := true }, fds)
      else
        (-1, close_wake fd0 fd1 { r.2.log Event.testcancel with errno := EINTR }, fds)
    else
      let count := (nfds + 1) % 2 ^ 32
      let res := env.poll ufd count timeout
      let w2 := raise_times env.raises (r.2.log (Event.poll ufd count timeout))
      let w3 := w2.set_errno_on_failure res.ret res.errno
      let fds1 := copy_revents res.revents 0 fds
      let drained : Int × World :=
        if res.ret > 0 ∧ res.revents nfds ≠ 0 then
          (res.ret - 1, w3.log (Event.read fd0 8))
        else
          (res.ret, w3)
      let f := drained.2.finish
      if f.1 ≠ 0 then
        (-1, close_wake fd0 fd1 { f.2 with errno := EINTR }, fds1)
      else
        (drained.1, close_wake fd0 fd1 f.2, fds1)

/-- Embedding of the POSIX `vlc_poll_i11e` (interrupt.c:335-361); `nfds` is the length
of the caller array `fds`. On the `malloc` path `free` is recorded whether
`vlc_poll_i11e_inner` returns (interrupt.c:358) or the thread is cancelled in it (the
handler pushed at interrupt.c:355). -/
def vlc_poll_i11e (env : Env) (w : World) (fds : List pollfd) (timeout : Int) :
    Int × World × List pollfd :=
  let nfds := fds.length
  if w.attached = false then
    let ufd := fds.map (fun p => (p.fd, p.events))
    let res := env.poll ufd nfds timeout
    let w1 := (w.log (Event.poll ufd nfds timeout)).set_errno_on_failure res.ret res.errno
    (res.ret, w1, copy_revents res.revents 0 fds)
  else if nfds < 255 then
    vlc_poll_i11e_inner env w fds timeout
  else
    let entries := (nfds + 1) % 2 ^ 32
    if env.malloc_ok then
      let r := vlc_poll_i11e_inner env (w.log (Event.malloc entries true)) fds timeout
      (r.1, r.2.1.log Event.free, r.2.2)
    else
      (-1, { w.log (Event.malloc entries false) with errno := ENOMEM }, fds)

/-! ## I/O convenience wrappers (POSIX) -/

/-- Embedding of `vlc_readv_i11e` (interrupt.c:380-390). The local `ufd.revents` is
not initialised by the source and not read by the model of `poll`. -/
def vlc_readv_i11e (env : Env) (w : World) (fd : Int) (iov : List iovec) (count : Int) :
    Int × World :=
  let p := vlc_poll_i11e env w [{ fd := fd, events := POLLIN, revents := 0 }] (-1)
  if p.1 < 0 then
    (-1, p.2.1)
  else
    let res := env.readv fd iov count
    (res.ret, (p.2.1.log (Event.readv fd iov count)).set_errno_on_failure res.ret res.errno)

/-- Embedding of `vlc_writev_i11e` (interrupt.c:399-409). -/
def vlc_writev_i11e (env : Env) (w : World) (fd : Int) (iov : List iovec) (count : Int) :
    Int × World :=
  let p := vlc_poll_i11e env w [{ fd := fd, events := POLLOUT, revents := 0 }] (-1)
  if p.1 < 0 then
    (-1, p.2.1)
  else
    let res := env.writev fd iov count
    (res.ret, (p.2.1.log (Event.writev fd iov count)).set_errno_on_failure res.ret res.errno)

/-- Embedding of `vlc_read_i11e` (interrupt.c:415-419). -/
def vlc_read_i11e (env : Env) (w : World) (fd : Int) (buf count : Nat) : Int × World :=
  vlc_readv_i11e env w fd [{ iov_base := buf, iov_len := count }] 1

/-- Embedding of `vlc_write_i11e` (interrupt.c:428-432): the source calls `writev`
itself, not `vlc_writev_i11e`. -/
def vlc_write_i11e (env : Env) (w : World) (fd : Int) (buf count : Nat) : Int × World :=
  let iov : List iovec := [{ iov_base := buf, iov_len := count }]
  let res := env.writev fd iov 1
  (res.ret, (w.log (Event.writev fd iov 1)).set_errno_on_failure res.ret res.errno)

/-- Embedding of `vlc_recvmsg_i11e` (interrupt.c:434-446); also returns the message
header, whose `msg_namelen` the system call updates. -/
def vlc_recvmsg_i11e (env : Env) (w : World) (fd : Int) (msg : msghdr) (flags : Int) :
    Int × World × msghdr :=
  let p := vlc_poll_i11e env w [{ fd := fd, events := POLLIN, revents := 0 }] (-1)
  if p.1 < 0 then
    (-1, p.2.1, msg)
  else
    let res := env.recvmsg fd msg flags
    (res.1.ret,
     (p.2.1.log (Event.recvmsg fd msg flags)).set_errno_on_failure res.1.ret res.1.errno,
     { msg with msg_namelen := res.2 })

/-- Embedding of `vlc_recvfrom_i11e` (interrupt.c:448-463); `addrlen = none` is the
`NULL` pointer, and the value of `*addrlen` after the call is returned. -/
def vlc_recvfrom_i11e (env : Env) (w : World) (fd : Int) (buf len : Nat) (flags : Int)
    (addr : Nat) (addrlen : Option Nat) : Int × World × Option Nat :=
  let iov : iovec := { iov_base := buf, iov_len := len }
  let msg : msghdr :=
    { msg_name := addr, msg_namelen := addrlen.getD 0, msg_iov := [iov], msg_iovlen := 1 }
  let r := vlc_recvmsg_i11e env w fd msg flags
  (r.1, r.2.1, if r.1 ≥ 0 then addrlen.map (fun _ => r.2.2.msg_namelen) else addrlen)

/-- Embedding of `vlc_sendmsg_i11e` (interrupt.c:465-476). -/
def vlc_sendmsg_i11e (env : Env) (w : World) (fd : Int) (msg : msghdr) (flags : Int) :
    Int × World :=
  let p := vlc_poll_i11e env w [{ fd := fd, events := POLLOUT, revents := 0 }] (-1)
  if p.1 < 0 then
    (-1, p.2.1)
  else
    let res := env.sendmsg fd msg flags
    (res.ret, (p.2.1.log (Event.sendmsg fd msg flags)).set_errno_on_failure res.ret res.errno)

/-- Embedding of `vlc_sendto_i11e` (interrupt.c:478-490). -/
def vlc_sendto_i11e (env : Env) (w : World) (fd : Int) (buf len : Nat) (flags : Int)
    (addr addrlen : Nat) : Int × World :=
  let iov : iovec := { iov_base := buf, iov_len := len }
  let msg : msghdr :=
    { msg_name := addr, msg_namelen := addrlen, msg_iov := [iov], msg_iovlen := 1 }
  vlc_sendmsg_i11e env w fd msg flags

/-! ## Observations on traces -/

/-- The events a call added to the trace, `w` being the world before the call and `w2`
the world after it. -/
def events_since (w w2 : World) : List Event :=
  w2.trace.drop w.trace.length

/-- The calls of the underlying `poll` in a trace: entries, entry count, timeout. -/
def poll_calls : List Event → List (List (Int × Int) × Nat × Int)
  | [] => []
  | Event.poll ufd nfds timeout :: es => (ufd, nfds, timeout) :: poll_calls es
  | _ :: es => poll_calls es

/-- The descriptors closed in a trace, in order. -/
def closes : List Event → List Int
  | [] => []
  | Event.close fd :: es => fd :: closes es
  | _ :: es => closes es

/-- Whether the event is a successful allocation of a wake object. -/
def Event.allocates_wake : Event → Bool
  | Event.eventfd res => res ≠ -1
  | Event.pipe (some _) => true
  | _ => false

/-- Whether a wake object was allocated in a trace. -/
def wake_allocated (tr : List Event) : Bool :=
  tr.any Event.allocates_wake

/-- The events added by the closing sequence `close_wake`. -/
def close_events (fd0 fd1 : Int) : List Event :=
  (if fd1 ≠ fd0 then [Event.close fd1] else []) ++ [Event.close fd0]

/-- The events added by `k` raises while the hook `vlc_poll_i11e_wake` is installed on
the pair `(fd0, fd1)`. -/
def raise_events (fd0 fd1 : Int) : Nat → List Event
  | 0 => []
  | k + 1 =>
    Event.hook Callback.vlc_poll_i11e_wake (Data.fd fd0 fd1) :: Event.write fd1 8 ::
      raise_events fd0 fd1 k

/-! ## The set of open descriptors -/

/-- Effect of one event on the set of open descriptors: a successful `eventfd` opens its
result, a successful `vlc_pipe` opens both ends, `close` closes its argument; no other
event of the model opens or closes a descriptor. -/
def apply_fd_event (fdset : Finset Int) : Event → Finset Int
  | Event.eventfd res => if res ≠ -1 then insert res fdset else fdset
  | Event.pipe (some (rd, wr)) => insert wr (insert rd fdset)
  | Event.close fd => fdset.erase fd
  | _ => fdset

/-- The set of open descriptors after the events `es`, starting from `fdset`. -/
def open_after (fdset : Finset Int) (es : List Event) : Finset Int :=
  es.foldl apply_fd_event fdset

/-! ## Process-wide state and thread binding

Contexts are named by their address. The `attached` field exists in builds without
`NDEBUG` only; it is kept next to the contexts. -/

/-- Calls that create or delete the thread-local slot `vlc_interrupt_var`. -/
inductive SlotCall where
  | threadvar_create
  | threadvar_delete
  deriving DecidableEq

/-- The process as seen by the calling thread: the counter `vlc_interrupt_refs`, whether
the slot `vlc_interrupt_var` exists, the value the calling thread has in the slot (`none`
is `NULL`), the contexts and their `attached` fields by address, the addresses passed to
`vlc_interrupt_init` and not to `vlc_interrupt_deinit` since (one entry for each
initialisation; a record kept beside the source's state), and the calls made on the
slot. -/
structure Process where
  vlc_interrupt_refs : Nat
  slot_exists : Bool
  threadvar : Option Nat
  ctx : Nat → vlc_interrupt_t
  attached : Nat → Bool
  alive : List Nat
  slot_calls : List SlotCall

/-- Embedding of `vlc_interrupt_init` (interrupt.c:62-80): the counter is read, then
incremented as an `unsigned`; the slot is created when the value read is 0. The `data`
field of the context is not written. -/
def vlc_interrupt_init (p : Process) (addr : Nat) : Process :=
  let created : Process :=
    if p.vlc_interrupt_refs = 0 then
      { p with slot_exists := true,
               slot_calls := p.slot_calls ++ [SlotCall.threadvar_create] }
    else p
  { created with
      vlc_interrupt_refs := (p.vlc_interrupt_refs + 1) % 2 ^ 32,
      ctx := Function.update p.ctx addr
        { interrupted := false, callback := none, data := (p.ctx addr).data },
      attached := Function.update p.attached addr false,
      alive := addr :: p.alive }

/-- The assert of `vlc_interrupt_init`: `vlc_interrupt_refs < UINT_MAX`. -/
def init_assert (p : Process) : Bool :=
  decide (p.vlc_interrupt_refs < UINT_MAX)

/-- Embedding of `vlc_interrupt_deinit` (interrupt.c:94-105): the counter is decremented
as an `unsigned`; the slot is deleted when the new value is 0, and with it the value the
thread had in it. -/
def vlc_interrupt_deinit (p : Process) (addr : Nat) : Process :=
  let refs := (p.vlc_interrupt_refs + 2 ^ 32 - 1) % 2 ^ 32
  let released : Process :=
    { p with vlc_interrupt_refs := refs, alive := p.alive.erase addr }
  if refs = 0 then
    { released with slot_exists := false, threadvar := none,
                    slot_calls := p.slot_calls ++ [SlotCall.threadvar_delete] }
  else released

/-- The asserts of `vlc_interrupt_deinit`: no hook, not attached, counter above 0. -/
def deinit_assert (p : Process) (addr : Nat) : Bool :=
  decide ((p.ctx addr).callback = none) && !p.attached addr &&
    decide (0 < p.vlc_interrupt_refs)

/-- Embedding of `vlc_interrupt_set` (interrupt.c:129-149): reads the slot, flips the
`attached` fields of the old and of the new context, writes the slot, returns the old
value. -/
def vlc_interrupt_set (p : Process) (newctx : Option Nat) : Option Nat × Process :=
  let oldctx := p.threadvar
  let detached : Nat → Bool :=
    match oldctx with
    | some a => Function.update p.attached a false
    | none => p.attached
  let reattached : Nat → Bool :=
    match newctx with
    | some a => Function.update detached a true
    | none => detached
  (oldctx, { p with attached := reattached, threadvar := newctx })

/-- The asserts of `vlc_interrupt_set`: the old context is attached, and the new one is
not attached once the old one is detached. -/
def set_assert (p : Process) (newctx : Option Nat) : Bool :=
  (match p.threadvar with
    | some a => p.attached a
    | none => true) &&
  (match newctx with
    | some b => decide (p.threadvar = some b) || !p.attached b
    | none => true)

/-- A call of `vlc_interrupt_init` or `vlc_interrupt_deinit` on the context at `addr`. -/
inductive LifeCall where
  | init (addr : Nat)
  | deinit (addr : Nat)
  deriving DecidableEq

/-- One call applied to the process. -/
def life_step (p : Process) : LifeCall → Process
  | LifeCall.init addr => vlc_interrupt_init p addr
  | LifeCall.deinit addr => vlc_interrupt_deinit p addr

/-- A sequence of calls applied in order. -/
def life_run (p : Process) (calls : List LifeCall) : Process :=
  calls.foldl life_step p

/-- The set of alive contexts after one more call, read off the call alone: a context is
alive from its initialisation until its deinitialisation. -/
def alive_step (alive : Finset Nat) : LifeCall → Finset Nat
  | LifeCall.init addr => insert addr alive
  | LifeCall.deinit addr => alive.erase addr

/-- The set of alive contexts after a sequence of calls from the initial process state.
It is computed from the calls, not from the state of the process. -/
def alive_after (calls : List LifeCall) : Finset Nat :=
  calls.foldl alive_step ∅

/-- Whether a sequence of calls, `alive` being the contexts alive before it, applies
`vlc_interrupt_deinit` only to a context that is alive. -/
def deinit_only_alive (alive : Finset Nat) : List LifeCall → Bool
  | [] => true
  | LifeCall.init addr :: rest => deinit_only_alive (insert addr alive) rest
  | LifeCall.deinit addr :: rest =>
    decide (addr ∈ alive) && deinit_only_alive (alive.erase addr) rest

/-- Whether a sequence of calls, `alive` being the contexts alive before it, applies
`vlc_interrupt_deinit` only to a context that is alive, and `vlc_interrupt_init` only to a
context that is not alive and while fewer than `UINT_MAX` contexts are alive. -/
def calls_well_formed (alive : Finset Nat) : List LifeCall → Bool
  | [] => true
  | LifeCall.init addr :: rest =>
    decide (addr ∉ alive) && decide (alive.card < UINT_MAX) &&
      calls_well_formed (insert addr alive) rest
  | LifeCall.deinit addr :: rest =>
    decide (addr ∈ alive) && calls_well_formed (alive.erase addr) rest

/-- Whether one call is well formed, `alive` being the contexts alive before it. -/
def call_well_formed (alive : Finset Nat) : LifeCall → Bool
  | LifeCall.init addr => decide (addr ∉ alive) && decide (alive.card < UINT_MAX)
  | LifeCall.deinit addr => decide (addr ∈ alive)

/-- The slot call that a call of `vlc_interrupt_init` or `vlc_interrupt_deinit` is to
make, `before` and `after` being the numbers of alive contexts before and after it: the
slot is created when the first context comes alive, deleted when the last one goes. -/
def expected_slot_calls (before after : Nat) : LifeCall → List SlotCall
  | LifeCall.init _ => if before = 0 then [SlotCall.threadvar_create] else []
  | LifeCall.deinit _ => if after = 0 then [SlotCall.threadvar_delete] else []

/-- The process agrees with a set `alive` of alive contexts: the counter is the number of
alive contexts and fits an `unsigned`, the slot exists exactly when a context is alive,
and every alive context has no hook and is not attached. -/
def Process.agrees (p : Process) (alive : Finset Nat) : Prop :=
  p.vlc_interrupt_refs = alive.card ∧
  p.vlc_interrupt_refs ≤ UINT_MAX ∧
  (p.slot_exists = true ↔ 0 < alive.card) ∧
  ∀ a ∈ alive, (p.ctx a).callback = none ∧ p.attached a = false

/-- The sequence of `n` initialisations of the contexts at addresses `0` to `n - 1`. -/
def init_many (n : Nat) : List LifeCall :=
  (List.range n).map LifeCall.init

/-- The initial process state: counter at 0 (interrupt.c:55), no slot, no context alive. -/
def process_start : Process :=
  { vlc_interrupt_refs := 0, slot_exists := false, threadvar := none,
    ctx := fun _ => { interrupted := false, callback := none, data := Data.null },
    attached := fun _ => false, alive := [], slot_calls := [] }

end Interrupt

/-! # HTTP connection manager (`modules/access/http/connmgr.c`)

The manager holds at most one connection. Collaborators that are not part of the file
(`vlc_tls_ClientCreate`, `vlc_http_stream_open`, `vlc_http_stream_read_headers`,
`vlc_clone`, `vlc_join`, `vlc_h1_conn_create`, `vlc_h2_conn_create`) give their results
through a `RequestEnv`; the calls a request makes are returned as a list of `MgrCall`. -/

namespace ConnMgr

/-- The transport `vlc_tls_t`: `secure` tells which function made it, `true` for the TLS
session of `vlc_https_connect`, `false` for the plaintext transport of
`vlc_http_connect`. -/
structure vlc_tls_t where
  secure : Bool
  id : Nat
  deriving DecidableEq

/-- The connection `struct vlc_http_conn`: its transport, and whether it speaks
HTTP/2. -/
structure vlc_http_conn where
  tls : vlc_tls_t
  h2 : Bool
  deriving DecidableEq

/-- The manager `struct vlc_http_mgr` (connmgr.c:134-141); `none` is `NULL`. -/
structure vlc_http_mgr where
  obj : Nat
  creds : Option Nat
  jar : Nat
  conn : Option vlc_http_conn
  use_h2c : Bool
  deriving DecidableEq

/-- Calls made on the collaborators while a request is served. -/
inductive MgrCall where
  | tls_client_create
  | stream_open (conn : vlc_http_conn) (req : Nat)
  | stream_read_headers
  | stream_close
  | conn_release (conn : vlc_http_conn)
  | connect (secure : Bool)
  | conn_create (tls : vlc_tls_t) (h2 : Bool)
  | tls_close (tls : vlc_tls_t)
  deriving DecidableEq

/-- What happens to a request handed to a connection: `vlc_http_stream_open` fails, or it
succeeds and `vlc_http_stream_read_headers` fails, or the response headers `m` arrive. -/
inductive StreamResult where
  | open_failed
  | headers_failed
  | headers (m : Nat)
  deriving DecidableEq

/-- The value `vlc_join` gives for the connecting thread: `NULL`, `VLC_THREAD_CANCELED`,
or a transport. -/
inductive JoinResult where
  | null
  | canceled
  | transport (id : Nat)
  deriving DecidableEq

/-- Results of the collaborators during one request: `vlc_tls_ClientCreate`, the stream
on the connection held on entry, `vlc_clone`, `vlc_join`, the protocol negotiated by
`vlc_https_connect`, the creation of the connection object, and the stream on the new
connection. -/
structure RequestEnv where
  creds : Option Nat
  held : StreamResult
  clone_ok : Bool
  joined : JoinResult
  http2 : Bool
  conn_ok : Bool
  fresh : StreamResult
  deriving DecidableEq

/-- Embedding of `vlc_http_mgr_create` (connmgr.c:307-320); `none` when `malloc` fails. -/
def vlc_http_mgr_create (malloc_ok : Bool) (obj jar : Nat) (h2c : Bool) :
    Option vlc_http_mgr :=
  if malloc_ok then
    some { obj := obj, creds := none, jar := jar, conn := none, use_h2c := h2c }
  else none

/-- Embedding of `vlc_http_mgr_find` (connmgr.c:143-148). -/
def vlc_http_mgr_find (mgr : vlc_http_mgr) : Option vlc_http_conn :=
  mgr.conn

/-- Embedding of `vlc_http_mgr_release` (connmgr.c:150-157). -/
def vlc_http_mgr_release (mgr : vlc_http_mgr) (conn : vlc_http_conn) :
    vlc_http_mgr × List MgrCall :=
  ({ mgr with conn := none }, [MgrCall.conn_release conn])

/-- Embedding of `vlc_http_mgr_reuse` (connmgr.c:159-184): the response (`none` is
`NULL`), the manager and the calls made. -/
def vlc_http_mgr_reuse (stream : StreamResult) (mgr : vlc_http_mgr) (req : Nat) :
    Option Nat × vlc_http_mgr × List MgrCall :=
  match vlc_http_mgr_find mgr with
  | none => (none, mgr, [])
  | some conn =>
    match stream with
    | StreamResult.headers m =>
      (some m, mgr, [MgrCall.stream_open conn req, MgrCall.stream_read_headers])
    | StreamResult.headers_failed =>
      (none, (vlc_http_mgr_release mgr conn).1,
        [MgrCall.stream_open conn req, MgrCall.stream_read_headers, MgrCall.stream_close] ++
          (vlc_http_mgr_release mgr conn).2)
    | StreamResult.open_failed =>
      (none, (vlc_http_mgr_release mgr conn).1,
        MgrCall.stream_open conn req :: (vlc_http_mgr_release mgr conn).2)

/-- Embedding of `vlc_https_connect_i11e` (connmgr.c:57-86): the transport and the
`http2` flag, `none` when `vlc_clone` fails or the thread gives `NULL` or was cancelled. -/
def vlc_https_connect_i11e (env : RequestEnv) : Option (vlc_tls_t × Bool) :=
  if env.clone_ok = false then none
  else
    match env.joined with
    | JoinResult.canceled => none
    | JoinResult.null => none
    | JoinResult.transport id => some ({ secure := true, id := id }, env.http2)

/-- Embedding of `vlc_http_connect_i11e` (connmgr.c:107-131). -/
def vlc_http_connect_i11e (env : RequestEnv) : Option vlc_tls_t :=
  if env.clone_ok = false then none
  else
    match env.joined with
    | JoinResult.canceled => none
    | JoinResult.null => none
    | JoinResult.transport id => some { secure := false, id := id }

/-- The tail shared by `vlc_https_request` (connmgr.c:207-232) and `vlc_http_request`
(connmgr.c:247-265) once a transport is at hand: create the connection object, store it
in the manager, hand the request to it. -/
def adopt_transport (env : RequestEnv) (mgr : vlc_http_mgr) (req : Nat) (tls : vlc_tls_t)
    (h2 : Bool) (done : List MgrCall) : Option Nat × vlc_http_mgr × List MgrCall :=
  if env.conn_ok = false then
    (none, mgr, done ++ [MgrCall.conn_create tls h2, MgrCall.tls_close tls])
  else
    let conn : vlc_http_conn := { tls := tls, h2 := h2 }
    let r := vlc_http_mgr_reuse env.fresh { mgr with conn := some conn } req
    (r.1, r.2.1, done ++ [MgrCall.conn_create tls h2] ++ r.2.2)

/-- Embedding of `vlc_https_request` (connmgr.c:186-233). -/
def vlc_https_request (env : RequestEnv) (mgr : vlc_http_mgr) (req : Nat) :
    Option Nat × vlc_http_mgr × List MgrCall :=
  if mgr.creds = none ∧ mgr.conn ≠ none then
    (none, mgr, [])
  else
    let loaded : Option (vlc_http_mgr × List MgrCall) :=
      if mgr.creds = none then
        match env.creds with
        | none => none
        | some c => some ({ mgr with creds := some c }, [MgrCall.tls_client_create])
      else some (mgr, [])
    match loaded with
    | none => (none, mgr, [MgrCall.tls_client_create])
    | some (mgr1, acts1) =>
      let r := vlc_http_mgr_reuse env.held mgr1 req
      match r.1 with
      | some resp => (some resp, r.2.1, acts1 ++ r.2.2)
      | none =>
        match vlc_https_connect_i11e env with
        | none => (none, r.2.1, acts1 ++ r.2.2 ++ [MgrCall.connect true])
        | some (tls, http2) =>
          adopt_transport env r.2.1 req tls http2 (acts1 ++ r.2.2 ++ [MgrCall.connect true])

/-- Embedding of `vlc_http_request` (connmgr.c:235-266). -/
def vlc_http_request (env : RequestEnv) (mgr : vlc_http_mgr) (req : Nat) :
    Option Nat × vlc_http_mgr × List MgrCall :=
  if mgr.creds ≠ none ∧ mgr.conn ≠ none then
    (none, mgr, [])
  else
    let r := vlc_http_mgr_reuse env.held mgr req
    match r.1 with
    | some resp => (some resp, r.2.1, r.2.2)
    | none =>
      match vlc_http_connect_i11e env with
      | none => (none, r.2.1, r.2.2 ++ [MgrCall.connect false])
      | some tls =>
        adopt_transport env r.2.1 req tls mgr.use_h2c (r.2.2 ++ [MgrCall.connect false])

/-- Embedding of `vlc_http_mgr_request` (connmgr.c:268-273). -/
def vlc_http_mgr_request (env : RequestEnv) (mgr : vlc_http_mgr) (https : Bool) (req : Nat) :
    Option Nat × vlc_http_mgr × List MgrCall :=
  if https then vlc_https_request env mgr req else vlc_http_request env mgr req

/-- One call of `vlc_http_mgr_request` with the results of its collaborators. -/
structure Request where
  https : Bool
  req : Nat
  env : RequestEnv
  deriving DecidableEq

/-- The manager after a sequence of requests. -/
def serve (mgr : vlc_http_mgr) : List Request → vlc_http_mgr
  | [] => mgr
  | r :: rest => serve (vlc_http_mgr_request r.env mgr r.https r.req).2.1 rest

/-- The connections to which `vlc_http_stream_open` was handed a request, in order. -/
def opened_on : List MgrCall → List vlc_http_conn
  | [] => []
  | MgrCall.stream_open conn _ :: rest => conn :: opened_on rest
  | _ :: rest => opened_on rest

/-- Facts kept by every request on a manager: a held connection over a TLS transport
implies that the credentials are loaded. -/
def vlc_http_mgr.tls_has_creds (mgr : vlc_http_mgr) : Prop :=
  ∀ conn, mgr.conn = some conn → conn.tls.secure = true → mgr.creds ≠ none

/-- An environment in which credentials load, connecting yields transport 1, and every
stream delivers the response 200. -/
def env_up : RequestEnv :=
  { creds := some 1, held := StreamResult.headers 200, clone_ok := true,
    joined := JoinResult.transport 1, http2 := false, conn_ok := true,
    fresh := StreamResult.headers 200 }

/-- The environment `env_up` with the connection attempt failing. -/
def env_unreachable : RequestEnv :=
  { env_up with joined := JoinResult.null }

/-- A manager as `vlc_http_mgr_create` returns it. -/
def mgr_new : vlc_http_mgr :=
  { obj := 0, creds := none, jar := 0, conn := none, use_h2c := false }

/-- The sequence: an HTTPS request whose connection attempt fails, then a plain HTTP
request that succeeds. -/
def failed_https_then_http : List Request :=
  [{ https := true, req := 1, env := env_unreachable },
   { https := false, req := 2, env := env_up }]

end ConnMgr

namespace Interrupt

/-! ## Test data -/

/-- A freshly initialised context (`vlc_interrupt_init`, interrupt.c:74-79); the
`data` field is not written by `vlc_interrupt_init`. -/
def ctx_init : vlc_interrupt_t :=
  { interrupted := false, callback := none, data := Data.null }

/-- A world whose thread has the fresh context attached and a semaphore at zero. -/
def world_init : World :=
  { ctx := ctx_init, attached := true, sem := 0, errno := 0, trace := [], cancelled := false }

/-- The world `world_init` after another thread raised an interruption. -/
def world_pending : World :=
  vlc_interrupt_raise world_init

/-- An environment with an eventfd on descriptor 7 whose `poll` reports entry 0
ready, and whose transfer calls succeed with 5 bytes. -/
def env_ready : Env :=
  { have_eventfd := true, eventfd := 7, pipe := some (8, 9), malloc_ok := true,
    cancel_at_testcancel := false,
    poll := fun _ _ _ => { ret := 1, revents := fun i => if i = 0 then 1 else 0, errno := 0 },
    raises := 0, posts := 0,
    readv := fun _ _ _ => { ret := 5, errno := 0 },
    writev := fun _ _ _ => { ret := 5, errno := 0 },
    recvmsg := fun _ _ _ => ({ ret := 5, errno := 0 }, 16),
    sendmsg := fun _ _ _ => { ret := 5, errno := 0 } }

/-! ## Basic facts about the trace and the context -/

theorem hook_calls_append (a b : List Event) :
    hook_calls (a ++ b) = hook_calls a ++ hook_calls b := by
  induction a with
  | nil => rfl
  | cons e es ih => cases e <;> simp [hook_calls, ih]

theorem invoke_ctx (cb : Callback) (data : Data) (w : World) :
    (invoke cb data w).ctx = w.ctx := by
  unfold invoke
  split <;> rfl

theorem invoke_hook_calls (cb : Callback) (data : Data) (w : World) :
    hook_calls (invoke cb data w).trace = hook_calls w.trace ++ [(cb, data)] := by
  unfold invoke
  split <;>
    simp [vlc_interrupt_sem, vlc_sem_post, vlc_poll_i11e_wake, World.log, hook_calls_append,
      hook_calls]

theorem raise_ctx (w : World) :
    (vlc_interrupt_raise w).ctx = { w.ctx with interrupted := true } := by
  cases h : w.ctx.callback <;> simp [vlc_interrupt_raise, h, invoke_ctx]

theorem raise_unset (w : World) (h : w.ctx.callback = none) :
    vlc_interrupt_raise w = { w with ctx := { w.ctx with interrupted := true } } := by
  simp [vlc_interrupt_raise, h]

theorem raise_hook_calls_set (w : World) (cb : Callback) (h : w.ctx.callback = some cb) :
    hook_calls (vlc_interrupt_raise w).trace = hook_calls w.trace ++ [(cb, w.ctx.data)] := by
  simp [vlc_interrupt_raise, h, invoke_hook_calls]

theorem raise_times_ctx (k : Nat) (w : World) (hk : 1 ≤ k) :
    (raise_times k w).ctx = { w.ctx with interrupted := true } := by
  induction k generalizing w with
  | zero => omega
  | succ n ih =>
    cases n with
    | zero => simp [raise_times, raise_ctx]
    | succ m => rw [raise_times, ih _ (by omega), raise_ctx]

theorem raise_times_unset (k : Nat) (w : World) (h : w.ctx.callback = none) (hk : 1 ≤ k) :
    raise_times k w = { w with ctx := { w.ctx with interrupted := true } } := by
  induction k generalizing w with
  | zero => omega
  | succ n ih =>
    cases n with
    | zero => simp [raise_times, raise_unset w h]
    | succ m => rw [raise_times, ih _ (by simp [raise_ctx, h]) (by omega), raise_unset w h]

theorem events_since_append (w w2 : World) (es : List Event) (h : w2.trace = w.trace ++ es) :
    events_since w w2 = es := by
  simp [events_since, h]

theorem poll_calls_append (a b : List Event) :
    poll_calls (a ++ b) = poll_calls a ++ poll_calls b := by
  induction a with
  | nil => rfl
  | cons e es ih => cases e <;> simp [poll_calls, ih]

theorem closes_append (a b : List Event) : closes (a ++ b) = closes a ++ closes b := by
  induction a with
  | nil => rfl
  | cons e es ih => cases e <;> simp [closes, ih]

theorem wake_object_events (env : Env) :
    wake_allocated (wake_object env).2 = (wake_object env).1.isSome ∧
    poll_calls (wake_object env).2 = [] ∧ closes (wake_object env).2 = [] := by
  unfold wake_object
  cases h1 : env.have_eventfd <;> cases h2 : env.pipe <;> by_cases h3 : env.eventfd = -1 <;>
    simp [h3, wake_allocated, Event.allocates_wake, poll_calls, closes]

theorem close_wake_eq (fd0 fd1 : Int) (w : World) :
    close_wake fd0 fd1 w = { w with trace := w.trace ++ close_events fd0 fd1 } := by
  unfold close_wake close_events
  split <;> simp [World.log]

theorem raise_events_observed (fd0 fd1 : Int) (k : Nat) :
    wake_allocated (raise_events fd0 fd1 k) = false ∧
    poll_calls (raise_events fd0 fd1 k) = [] ∧ closes (raise_events fd0 fd1 k) = [] := by
  induction k with
  | zero => simp [raise_events, wake_allocated, poll_calls, closes]
  | succ n ih =>
    simp [raise_events, wake_allocated, poll_calls, closes, Event.allocates_wake] at ih ⊢
    exact ih

theorem raise_times_poll (k : Nat) (w : World) (fd0 fd1 : Int)
    (hc : w.ctx.callback = some Callback.vlc_poll_i11e_wake)
    (hd : w.ctx.data = Data.fd fd0 fd1) :
    raise_times k w =
      { w with ctx := { w.ctx with interrupted := w.ctx.interrupted || decide (1 ≤ k) },
               trace := w.trace ++ raise_events fd0 fd1 k } := by
  induction k generalizing w with
  | zero => simp [raise_times, raise_events]
  | succ n ih =>
    rw [raise_times, ih]
    · simp [vlc_interrupt_raise, hc, hd, invoke, vlc_poll_i11e_wake, World.log, raise_events]
    · simp [raise_ctx, hc]
    · simp [raise_ctx, hd]

theorem inner_alloc_failed (env : Env) (w : World) (fds : List pollfd) (timeout : Int)
    (ha : (wake_object env).1 = none) :
    vlc_poll_i11e_inner env w fds timeout =
      (-1, { w with errno := if env.cancel_at_testcancel = true then w.errno else ENOMEM,
                    trace := w.trace ++ ((wake_object env).2 ++ [Event.testcancel]),
                    cancelled := env.cancel_at_testcancel || w.cancelled }, fds) := by
  cases hc : env.cancel_at_testcancel <;> simp [vlc_poll_i11e_inner, ha, World.log, hc]

theorem inner_pending (env : Env) (w : World) (fds : List pollfd) (timeout : Int)
    (fd0 fd1 : Int) (ha : (wake_object env).1 = some (fd0, fd1))
    (hp : w.ctx.interrupted = true) :
    vlc_poll_i11e_inner env w fds timeout =
      (-1, { w with ctx := { w.ctx with interrupted := false },
                    errno := if env.cancel_at_testcancel = true then w.errno else EINTR,
                    trace := w.trace ++ ((wake_object env).2 ++
                      (Event.testcancel ::
                        (if env.cancel_at_testcancel = true then []
                          else close_events fd0 fd1))),
                    cancelled := env.cancel_at_testcancel || w.cancelled }, fds) := by
  cases hc : env.cancel_at_testcancel <;>
    simp [vlc_poll_i11e_inner, ha, World.prepare, vlc_interrupt_prepare, hp, close_wake_eq,
      World.log, EINTR, hc]

/-- The world reached by `vlc_poll_i11e_inner` when the wake object `(fd0, fd1)` is
allocated and no interruption is pending on entry. -/
theorem inner_armed (env : Env) (w : World) (fds : List pollfd) (timeout : Int)
    (fd0 fd1 : Int) (ha : (wake_object env).1 = some (fd0, fd1))
    (hp : w.ctx.interrupted = false) :
    vlc_poll_i11e_inner env w fds timeout =
      (if 1 ≤ env.raises then -1
        else if (env.poll (extended_array fds fd0) ((fds.length + 1) % 2 ^ 32) timeout).ret > 0 ∧
            (env.poll (extended_array fds fd0) ((fds.length + 1) % 2 ^ 32) timeout).revents
              fds.length ≠ 0
          then (env.poll (extended_array fds fd0) ((fds.length + 1) % 2 ^ 32) timeout).ret - 1
          else (env.poll (extended_array fds fd0) ((fds.length + 1) % 2 ^ 32) timeout).ret,
       { w with
           ctx := { interrupted := false, callback := none, data := Data.fd fd0 fd1 },
           errno :=
             if 1 ≤ env.raises then EINTR
             else if (env.poll (extended_array fds fd0) ((fds.length + 1) % 2 ^ 32) timeout).ret < 0
               then (env.poll (extended_array fds fd0) ((fds.length + 1) % 2 ^ 32) timeout).errno
               else w.errno,
           trace := w.trace ++ ((wake_object env).2 ++
             (Event.poll (extended_array fds fd0) ((fds.length + 1) % 2 ^ 32) timeout ::
               (raise_events fd0 fd1 env.raises ++
                 ((if (env.poll (extended_array fds fd0) ((fds.length + 1) % 2 ^ 32) timeout).ret > 0 ∧
                      (env.poll (extended_array fds fd0) ((fds.length + 1) % 2 ^ 32) timeout).revents
                        fds.length ≠ 0
                    then [Event.read fd0 8] else []) ++ close_events fd0 fd1)))) },
       copy_revents
         (env.poll (extended_array fds fd0) ((fds.length + 1) % 2 ^ 32) timeout).revents 0 fds) := by
  simp only [vlc_poll_i11e_inner, ha, World.prepare, vlc_interrupt_prepare, hp]
  simp only [Bool.false_eq_true, if_false, ne_eq, not_true_eq_false]
  rw [raise_times_poll env.raises _ fd0 fd1 rfl rfl]
  generalize env.poll (extended_array fds fd0) ((fds.length + 1) % 2 ^ 32) timeout = res
  by_cases hk : 1 ≤ env.raises <;> by_cases hd : (res.ret > 0 ∧ res.revents fds.length ≠ 0) <;>
    by_cases hn : res.ret < 0 <;>
    simp [World.log, World.finish, vlc_interrupt_finish, World.set_errno_on_failure,
      close_wake_eq, hp, hk, hd, hn, EINTR]

/-! ## Claims on the arm/disarm protocol -/

/-- C1: `vlc_interrupt_prepare` on a context whose hook is unset: with an interruption
pending it returns `EINTR`, clears the flag and leaves the hook unset; with none pending
it returns 0, installs the hook `(cb, data)` and leaves the flag false. `EINTR` is not 0,
so the two results are distinct. -/
theorem prepare_contract (ctx : vlc_interrupt_t) (cb : Callback) (data : Data)
    (hook_unset : ctx.callback = none) :
    (ctx.interrupted = true →
      (vlc_interrupt_prepare ctx cb data).1 = EINTR ∧
      (vlc_interrupt_prepare ctx cb data).2.interrupted = false ∧
      (vlc_interrupt_prepare ctx cb data).2.callback = none ∧
      (vlc_interrupt_prepare ctx cb data).2.data = ctx.data) ∧
    (ctx.interrupted = false →
      (vlc_interrupt_prepare ctx cb data).1 = 0 ∧
      (vlc_interrupt_prepare ctx cb data).2.interrupted = false ∧
      (vlc_interrupt_prepare ctx cb data).2.callback = some cb ∧
      (vlc_interrupt_prepare ctx cb data).2.data = data) ∧
    EINTR ≠ 0 := by
  refine ⟨?_, ?_, by decide⟩
  · intro h
    simp [vlc_interrupt_prepare, h, hook_unset]
  · intro h
    simp [vlc_interrupt_prepare, h]

/-- Instance of C1 on the fresh context with the semaphore hook. -/
theorem prepare_contract_witness :
    ctx_init.callback = none ∧
    (vlc_interrupt_prepare ctx_init Callback.vlc_interrupt_sem Data.sem).1 = 0 ∧
    (vlc_interrupt_prepare ctx_init Callback.vlc_interrupt_sem Data.sem).2.callback =
      some Callback.vlc_interrupt_sem :=
  ⟨rfl,
   ((prepare_contract ctx_init Callback.vlc_interrupt_sem Data.sem rfl).2.1 rfl).1,
   ((prepare_contract ctx_init Callback.vlc_interrupt_sem Data.sem rfl).2.1 rfl).2.2.1⟩

/-- C2: `vlc_interrupt_finish`, for every context state: it returns `EINTR` exactly when
an interruption was pending on entry and 0 otherwise, and on return the hook is unset and
the flag is false (the `data` field is not touched). -/
theorem finish_contract (ctx : vlc_interrupt_t) :
    ((vlc_interrupt_finish ctx).1 = EINTR ↔ ctx.interrupted = true) ∧
    ((vlc_interrupt_finish ctx).1 = 0 ↔ ctx.interrupted = false) ∧
    (vlc_interrupt_finish ctx).2.callback = none ∧
    (vlc_interrupt_finish ctx).2.interrupted = false ∧
    (vlc_interrupt_finish ctx).2.data = ctx.data := by
  cases h : ctx.interrupted <;> simp [vlc_interrupt_finish, h, EINTR]

/-- C3: on a context with no interruption pending (and, as `prepare` asserts, no hook:
the proof does not need it), the sequence `prepare(cb, data)`, one `vlc_interrupt_raise`,
`finish`: `prepare` returns 0, the raise invokes the hook exactly once, as `cb(data)`,
neither `prepare` nor `finish` invokes anything, and `finish` returns `EINTR`. -/
theorem raise_between_prepare_and_finish (w : World) (cb : Callback) (data : Data)
    (not_pending : w.ctx.interrupted = false) :
    (w.prepare cb data).1 = 0 ∧
    hook_calls (w.prepare cb data).2.trace = hook_calls w.trace ∧
    hook_calls (vlc_interrupt_raise (w.prepare cb data).2).trace =
      hook_calls w.trace ++ [(cb, data)] ∧
    (vlc_interrupt_raise (w.prepare cb data).2).finish.1 = EINTR ∧
    hook_calls (vlc_interrupt_raise (w.prepare cb data).2).finish.2.trace =
      hook_calls w.trace ++ [(cb, data)] := by
  have hp : (w.prepare cb data).2.ctx.callback = some cb := by
    simp [World.prepare, vlc_interrupt_prepare, not_pending]
  have hd : (w.prepare cb data).2.ctx.data = data := by
    simp [World.prepare, vlc_interrupt_prepare, not_pending]
  have ht : (w.prepare cb data).2.trace = w.trace := rfl
  have hr := raise_hook_calls_set (w.prepare cb data).2 cb hp
  rw [hd, ht] at hr
  refine ⟨by simp [World.prepare, vlc_interrupt_prepare, not_pending], by rw [ht], hr, ?_, ?_⟩
  · simp [World.finish, vlc_interrupt_finish, raise_ctx]
  · exact hr

/-- Instance of C3 on the fresh world with a foreign hook. -/
theorem raise_between_prepare_and_finish_witness :
    world_init.ctx.interrupted = false ∧
    hook_calls
      (vlc_interrupt_raise (world_init.prepare (Callback.other 1) (Data.ptr 2)).2).trace =
      hook_calls world_init.trace ++ [(Callback.other 1, Data.ptr 2)] ∧
    (vlc_interrupt_raise (world_init.prepare (Callback.other 1) (Data.ptr 2)).2).finish.1 =
      EINTR :=
  ⟨rfl,
   (raise_between_prepare_and_finish world_init (Callback.other 1) (Data.ptr 2) rfl).2.2.1,
   (raise_between_prepare_and_finish world_init (Callback.other 1) (Data.ptr 2) rfl).2.2.2.1⟩

/-- C4: on a context whose hook is unset, after `k ≥ 1` calls of `vlc_interrupt_raise`,
`prepare` returns `EINTR`; the raises and the `prepare` add nothing to the trace (so no
hook is invoked), and afterwards the hook is still unset and the flag is cleared. -/
theorem raise_before_prepare (w : World) (k : Nat) (cb : Callback) (data : Data)
    (hook_unset : w.ctx.callback = none) (hk : 1 ≤ k) :
    ((raise_times k w).prepare cb data).1 = EINTR ∧
    ((raise_times k w).prepare cb data).2.trace = w.trace ∧
    hook_calls ((raise_times k w).prepare cb data).2.trace = hook_calls w.trace ∧
    ((raise_times k w).prepare cb data).2.ctx.callback = none ∧
    ((raise_times k w).prepare cb data).2.ctx.interrupted = false := by
  rw [raise_times_unset k w hook_unset hk]
  simp [World.prepare, vlc_interrupt_prepare, hook_unset]

/-- Instance of C4: three raises on the fresh world, then `prepare`. -/
theorem raise_before_prepare_witness :
    world_init.ctx.callback = none ∧ 1 ≤ 3 ∧
    ((raise_times 3 world_init).prepare Callback.vlc_interrupt_sem Data.sem).1 = EINTR ∧
    ((raise_times 3 world_init).prepare Callback.vlc_interrupt_sem Data.sem).2.ctx.callback =
      none :=
  ⟨rfl, by decide,
   (raise_before_prepare world_init 3 Callback.vlc_interrupt_sem Data.sem rfl (by decide)).1,
   (raise_before_prepare world_init 3 Callback.vlc_interrupt_sem Data.sem rfl
     (by decide)).2.2.2.1⟩

/-- C5: pending interruptions are not counted. After a successful `prepare` (no
interruption pending on entry), `k ≥ 1` raises and `finish`: that `finish` returns
`EINTR`; a following `prepare`/`finish` pair with no raise in between returns 0 from
`prepare` and 0 from `finish`; and the context after `k` raises and `finish` equals the
context after one raise and `finish`. -/
theorem pending_not_counted (w : World) (k : Nat) (cb cb2 : Callback) (data data2 : Data)
    (not_pending : w.ctx.interrupted = false) (hk : 1 ≤ k) :
    (w.prepare cb data).1 = 0 ∧
    (raise_times k (w.prepare cb data).2).finish.1 = EINTR ∧
    ((raise_times k (w.prepare cb data).2).finish.2.prepare cb2 data2).1 = 0 ∧
    ((raise_times k (w.prepare cb data).2).finish.2.prepare cb2 data2).2.finish.1 = 0 ∧
    (raise_times k (w.prepare cb data).2).finish.2.ctx =
      (vlc_interrupt_raise (w.prepare cb data).2).finish.2.ctx := by
  simp [World.finish, World.prepare, vlc_interrupt_finish, vlc_interrupt_prepare,
    raise_times_ctx k _ hk, raise_ctx, not_pending]

/-- Instance of C5: four raises between `prepare` and `finish` on the fresh world. -/
theorem pending_not_counted_witness :
    world_init.ctx.interrupted = false ∧ 1 ≤ 4 ∧
    (raise_times 4 (world_init.prepare Callback.vlc_interrupt_sem Data.sem).2).finish.1 =
      EINTR ∧
    ((raise_times 4 (world_init.prepare Callback.vlc_interrupt_sem Data.sem).2).finish.2.prepare
      Callback.vlc_interrupt_sem Data.sem).1 = 0 :=
  ⟨rfl, by decide,
   (pending_not_counted world_init 4 Callback.vlc_interrupt_sem Callback.vlc_interrupt_sem
     Data.sem Data.sem rfl (by decide)).2.1,
   (pending_not_counted world_init 4 Callback.vlc_interrupt_sem Callback.vlc_interrupt_sem
     Data.sem Data.sem rfl (by decide)).2.2.1⟩

/-! ## Facts about the multiplexer wrapper -/

theorem copy_revents_get (revents : Nat → Int) (start : Nat) (fds : List pollfd)
    (i : Nat) :
    (copy_revents revents start fds)[i]? =
      (fds[i]?).map (fun p => { p with revents := revents (start + i) }) := by
  induction fds generalizing start i with
  | nil => simp [copy_revents]
  | cons p ps ih =>
    cases i with
    | zero => simp [copy_revents]
    | succ j =>
      simp only [copy_revents, List.getElem?_cons_succ, ih]
      have : start + 1 + j = start + (j + 1) := by omega
      rw [this]

theorem copy_revents_append (revents : Nat → Int) (start : Nat) (l : List pollfd)
    (p : pollfd) :
    copy_revents revents start (l ++ [p]) =
      copy_revents revents start l ++ [{ p with revents := revents (start + l.length) }] := by
  induction l generalizing start with
  | nil => simp [copy_revents]
  | cons q qs ih =>
    have hlen : start + 1 + qs.length = start + (qs.length + 1) := by omega
    show copy_revents revents start (q :: (qs ++ [p])) = _
    rw [copy_revents, ih, hlen]
    rfl

theorem ready_entries_copy (revents : Nat → Int) (fds : List pollfd) :
    ready_entries (copy_revents revents 0 fds) = count_ready revents fds.length := by
  induction fds using List.reverseRecOn with
  | nil => rfl
  | append_singleton l p ih =>
    rw [copy_revents_append]
    unfold ready_entries at ih ⊢
    rw [List.filter_append, List.length_append, ih]
    by_cases h : revents l.length = 0 <;> simp [count_ready, h]

theorem closes_close_events (fd0 fd1 : Int) :
    closes (close_events fd0 fd1) = if fd1 ≠ fd0 then [fd1, fd0] else [fd0] := by
  unfold close_events
  split <;> simp [closes]

theorem close_events_observed (fd0 fd1 : Int) :
    wake_allocated (close_events fd0 fd1) = false ∧ poll_calls (close_events fd0 fd1) = [] := by
  unfold close_events
  split <;> simp [wake_allocated, Event.allocates_wake, poll_calls]

theorem wake_allocated_append (a b : List Event) :
    wake_allocated (a ++ b) = (wake_allocated a || wake_allocated b) := by
  simp [wake_allocated]

theorem wake_allocated_nil : wake_allocated [] = false := rfl

theorem wake_allocated_cons (e : Event) (es : List Event) :
    wake_allocated (e :: es) = (e.allocates_wake || wake_allocated es) := by
  simp [wake_allocated]

/-- With a context attached, a run of `vlc_poll_i11e` in which a wake object was
allocated went through `vlc_poll_i11e_inner` with that wake object. -/
theorem poll_attached_of_wake_allocated (env : Env) (w : World) (fds : List pollfd)
    (timeout : Int) (h_att : w.attached = true)
    (h_wake : wake_allocated (events_since w (vlc_poll_i11e env w fds timeout).2.1) = true) :
    ∃ fd0 fd1, (wake_object env).1 = some (fd0, fd1) ∧
      ((fds.length < 255 ∧
          vlc_poll_i11e env w fds timeout = vlc_poll_i11e_inner env w fds timeout) ∨
       (¬ fds.length < 255 ∧ env.malloc_ok = true ∧
          vlc_poll_i11e env w fds timeout =
            ((vlc_poll_i11e_inner env
                (w.log (Event.malloc ((fds.length + 1) % 2 ^ 32) true)) fds timeout).1,
             (vlc_poll_i11e_inner env
                (w.log (Event.malloc ((fds.length + 1) % 2 ^ 32) true)) fds timeout).2.1.log
               Event.free,
             (vlc_poll_i11e_inner env
                (w.log (Event.malloc ((fds.length + 1) % 2 ^ 32) true)) fds timeout).2.2))) := by
  have hev := (wake_object_events env).1
  cases ha : (wake_object env).1 with
  | none =>
    exfalso
    rw [ha, Option.isSome_none] at hev
    by_cases hs : fds.length < 255
    · rw [events_since_append w _ ((wake_object env).2 ++ [Event.testcancel])
        (by simp [vlc_poll_i11e, h_att, hs, inner_alloc_failed env _ fds timeout ha])] at h_wake
      simp [wake_allocated_append, wake_allocated_cons, wake_allocated_nil, hev,
        Event.allocates_wake] at h_wake
    · by_cases hm : env.malloc_ok = true
      · rw [events_since_append w _
          (Event.malloc ((fds.length + 1) % 2 ^ 32) true ::
            ((wake_object env).2 ++ [Event.testcancel, Event.free]))
          (by simp [vlc_poll_i11e, h_att, hs, hm, inner_alloc_failed env _ fds timeout ha,
            World.log])] at h_wake
        simp [wake_allocated_append, wake_allocated_cons, wake_allocated_nil, hev,
          Event.allocates_wake] at h_wake
      · simp [vlc_poll_i11e, h_att, hs, hm, events_since, World.log, wake_allocated,
          Event.allocates_wake] at h_wake
  | some p =>
    obtain ⟨fd0, fd1⟩ := p
    refine ⟨fd0, fd1, rfl, ?_⟩
    by_cases hs : fds.length < 255
    · left
      exact ⟨hs, by simp [vlc_poll_i11e, h_att, hs]⟩
    · right
      by_cases hm : env.malloc_ok = true
      · exact ⟨hs, hm, by simp [vlc_poll_i11e, h_att, hs, hm]⟩
      · exfalso
        simp [vlc_poll_i11e, h_att, hs, hm, events_since, World.log, wake_allocated,
          Event.allocates_wake] at h_wake

theorem count_wraps_not (n : Nat) (h : n < UINT_MAX) : (n + 1) % 2 ^ 32 = n + 1 := by
  unfold UINT_MAX at h
  omega

/-- With `UINT_MAX` caller entries the entry count `nfds + 1` wraps to 0. -/
theorem poll_count_wraps (env : Env) (w : World) (fds : List pollfd) (timeout : Int)
    (fd0 fd1 : Int) (h_att : w.attached = true) (h_np : w.ctx.interrupted = false)
    (h_len : fds.length = UINT_MAX) (h_malloc : env.malloc_ok = true)
    (ha : (wake_object env).1 = some (fd0, fd1)) :
    poll_calls (events_since w (vlc_poll_i11e env w fds timeout).2.1) =
      [(extended_array fds fd0, 0, timeout)] := by
  have hs : ¬ fds.length < 255 := by rw [h_len]; decide
  have hc : (fds.length + 1) % 2 ^ 32 = 0 := by rw [h_len]; decide
  have hw := wake_object_events env
  have hr := raise_events_observed fd0 fd1 env.raises
  have hcl := close_events_observed fd0 fd1
  simp only [vlc_poll_i11e, h_att, hs, h_malloc, if_true, if_false, Bool.true_eq_false]
  rw [inner_armed env _ fds timeout fd0 fd1 ha (by simpa [World.log] using h_np), hc]
  simp only [events_since, World.log, List.append_assoc, List.drop_left]
  split <;> simp [poll_calls_append, hw.2.1, hr.2.1, hcl.2, poll_calls]

/-- C6, as amended: `vlc_poll_i11e` with a context attached that has no interruption
pending on entry, on a caller array of `nfds < UINT_MAX` entries, in a run in which the
wake object `(fd0, fd1)` was allocated. The underlying `poll` is called exactly once, on
`nfds + 1` entries: the caller's `fd` and `events`, then `(fd0, POLLIN)`, with the caller's
timeout. Each caller entry comes back with the `revents` that `poll` reported for it, `fd`
and `events` unchanged. If `poll` returns `r ≥ 0` equal to the number of those `nfds + 1`
entries with non-zero `revents` and no raise lands between `prepare` and `finish` (so
`finish` reports no interruption), the wrapper returns the number of caller entries with
non-zero `revents`, which is `r - 1` when the wake entry is ready and `r` otherwise. If a
raise lands there, `finish` reports it and the wrapper returns -1 with `errno = EINTR`. -/
theorem poll_armed_path (env : Env) (w : World) (fds : List pollfd) (timeout : Int)
    (h_att : w.attached = true) (h_np : w.ctx.interrupted = false)
    (h_lt : fds.length < UINT_MAX)
    (h_wake : wake_allocated (events_since w (vlc_poll_i11e env w fds timeout).2.1) = true) :
    ∃ fd0 fd1, (wake_object env).1 = some (fd0, fd1) ∧
      extended_array fds fd0 = fds.map (fun p => (p.fd, p.events)) ++ [(fd0, POLLIN)] ∧
      (extended_array fds fd0).length = fds.length + 1 ∧
      poll_calls (events_since w (vlc_poll_i11e env w fds timeout).2.1) =
        [(extended_array fds fd0, fds.length + 1, timeout)] ∧
      (∀ i : Nat, (vlc_poll_i11e env w fds timeout).2.2[i]? =
        (fds[i]?).map (fun (p : pollfd) => { p with revents :=
          (env.poll (extended_array fds fd0) (fds.length + 1) timeout).revents i })) ∧
      (0 ≤ (env.poll (extended_array fds fd0) (fds.length + 1) timeout).ret →
        (env.poll (extended_array fds fd0) (fds.length + 1) timeout).ret =
          count_ready (env.poll (extended_array fds fd0) (fds.length + 1) timeout).revents
            (fds.length + 1) →
        env.raises = 0 →
          (vlc_poll_i11e env w fds timeout).1 =
            ready_entries (vlc_poll_i11e env w fds timeout).2.2 ∧
          (vlc_poll_i11e env w fds timeout).1 =
            (if (env.poll (extended_array fds fd0) (fds.length + 1) timeout).revents
                fds.length ≠ 0
              then (env.poll (extended_array fds fd0) (fds.length + 1) timeout).ret - 1
              else (env.poll (extended_array fds fd0) (fds.length + 1) timeout).ret)) ∧
      (1 ≤ env.raises →
        (vlc_poll_i11e env w fds timeout).1 = -1 ∧
        (vlc_poll_i11e env w fds timeout).2.1.errno = EINTR) := by
  obtain ⟨fd0, fd1, ha, h⟩ := poll_attached_of_wake_allocated env w fds timeout h_att h_wake
  have hw := wake_object_events env
  have hr := raise_events_observed fd0 fd1 env.raises
  have hcl := close_events_observed fd0 fd1
  have hcount := count_wraps_not fds.length h_lt
  refine ⟨fd0, fd1, ha, rfl, by simp [extended_array], ?_⟩
  have key : ∃ w2 es, vlc_poll_i11e env w fds timeout =
      ((vlc_poll_i11e_inner env w2 fds timeout).1,
       { (vlc_poll_i11e_inner env w2 fds timeout).2.1 with
          trace := (vlc_poll_i11e_inner env w2 fds timeout).2.1.trace ++ es },
       (vlc_poll_i11e_inner env w2 fds timeout).2.2) ∧
      w2.ctx.interrupted = false ∧ poll_calls (events_since w w2) = [] ∧
      poll_calls es = [] ∧ (∃ pre, w2.trace = w.trace ++ pre) := by
    rcases h with ⟨_, he⟩ | ⟨_, _, he⟩
    · exact ⟨w, [], by simp [he], h_np, by simp [events_since, poll_calls], rfl, [], by simp⟩
    · exact ⟨w.log (Event.malloc ((fds.length + 1) % 2 ^ 32) true), [Event.free],
        by simp [he, World.log], by simpa [World.log] using h_np,
        by simp [events_since, World.log, poll_calls], rfl, _, rfl⟩
  obtain ⟨w2, es, he, hnp2, hpre, hes, pre, htr⟩ := key
  rw [he, inner_armed env w2 fds timeout fd0 fd1 ha hnp2, hcount]
  generalize env.poll (extended_array fds fd0) (fds.length + 1) timeout = res
  have hpre2 : poll_calls pre = [] := by
    simpa [events_since, htr] using hpre
  refine ⟨?_, ?_, ?_, ?_⟩
  · simp only [events_since, htr, List.append_assoc, List.drop_left]
    split <;> simp [poll_calls_append, hw.2.1, hr.2.1, hcl.2, hes, hpre2, poll_calls]
  · intro i
    simpa using copy_revents_get res.revents 0 fds i
  · intro h0 hcnt hk
    have hk1 : ¬ 1 ≤ env.raises := by omega
    simp only [hk1, if_false, ready_entries_copy]
    rw [count_ready] at hcnt
    by_cases hz : res.revents fds.length = 0
    · simp [hz] at hcnt ⊢
      exact hcnt
    · simp [hz] at hcnt ⊢
      have hpos : res.ret > 0 := by omega
      simp [hpos, hcnt]
  · intro hk
    simp [hk]

/-- Instance of C6 (amended): the fresh world, one caller entry that `poll` reports
ready, an eventfd on descriptor 7. -/
theorem poll_armed_path_witness :
    world_init.attached = true ∧ world_init.ctx.interrupted = false ∧
    [({ fd := 3, events := POLLIN, revents := 0 } : pollfd)].length < UINT_MAX ∧
    wake_allocated (events_since world_init
      (vlc_poll_i11e env_ready world_init [{ fd := 3, events := POLLIN, revents := 0 }]
        (-1)).2.1) = true ∧
    ∃ fd0 fd1, (wake_object env_ready).1 = some (fd0, fd1) ∧
      poll_calls (events_since world_init
        (vlc_poll_i11e env_ready world_init [{ fd := 3, events := POLLIN, revents := 0 }]
          (-1)).2.1) =
        [(extended_array [{ fd := 3, events := POLLIN, revents := 0 }] fd0, 1 + 1, -1)] :=
  ⟨rfl, rfl, by decide, by decide,
   (poll_armed_path env_ready world_init [{ fd := 3, events := POLLIN, revents := 0 }] (-1)
     rfl rfl (by decide) (by decide)).imp
     (fun _ h => h.imp (fun _ h2 => ⟨h2.1, h2.2.2.2.1⟩))⟩

/-- C6 as stated fails at three inputs, each with a context attached. With an
interruption pending on entry the underlying `poll` is not called. When neither an
eventfd nor a pipe can be had it is not called either. On a caller array of `UINT_MAX`
entries the entry count `nfds + 1` wraps, and `poll` is called with a count of 0. -/
theorem poll_not_always_called :
    poll_calls (events_since world_pending
      (vlc_poll_i11e env_ready world_pending [{ fd := 3, events := POLLIN, revents := 0 }]
        (-1)).2.1) = [] ∧
    poll_calls (events_since world_init
      (vlc_poll_i11e { env_ready with eventfd := -1, pipe := none } world_init
        [{ fd := 3, events := POLLIN, revents := 0 }] (-1)).2.1) = [] ∧
    poll_calls (events_since world_init
      (vlc_poll_i11e env_ready world_init
        (List.replicate UINT_MAX { fd := 3, events := POLLIN, revents := 0 }) (-1)).2.1) =
      [(extended_array (List.replicate UINT_MAX { fd := 3, events := POLLIN, revents := 0 }) 7,
        0, -1)] :=
  ⟨by decide, by decide,
   poll_count_wraps env_ready world_init _ (-1) 7 7 rfl rfl (List.length_replicate _ _) rfl rfl⟩

/-- The seven wrappers other than `vlc_write_i11e` wait with `vlc_poll_i11e` on the one
entry `(fd, POLLIN)` or `(fd, POLLOUT)` with timeout -1; on a negative result they return
-1 without a transfer call, otherwise they make the transfer call once and return its
result. -/
theorem io_wrappers_poll_first (env : Env) (w : World) (fd : Int) (iov : List iovec)
    (count flags : Int) (msg : msghdr) (buf len addr alen : Nat) (addrlen : Option Nat) :
    (vlc_readv_i11e env w fd iov count =
      if (vlc_poll_i11e env w [{ fd := fd, events := POLLIN, revents := 0 }] (-1)).1 < 0 then
        (-1, (vlc_poll_i11e env w [{ fd := fd, events := POLLIN, revents := 0 }] (-1)).2.1)
      else
        ((env.readv fd iov count).ret,
         ((vlc_poll_i11e env w [{ fd := fd, events := POLLIN, revents := 0 }] (-1)).2.1.log
           (Event.readv fd iov count)).set_errno_on_failure
             (env.readv fd iov count).ret (env.readv fd iov count).errno)) ∧
    (vlc_writev_i11e env w fd iov count =
      if (vlc_poll_i11e env w [{ fd := fd, events := POLLOUT, revents := 0 }] (-1)).1 < 0 then
        (-1, (vlc_poll_i11e env w [{ fd := fd, events := POLLOUT, revents := 0 }] (-1)).2.1)
      else
        ((env.writev fd iov count).ret,
         ((vlc_poll_i11e env w [{ fd := fd, events := POLLOUT, revents := 0 }] (-1)).2.1.log
           (Event.writev fd iov count)).set_errno_on_failure
             (env.writev fd iov count).ret (env.writev fd iov count).errno)) ∧
    vlc_read_i11e env w fd buf len =
      vlc_readv_i11e env w fd [{ iov_base := buf, iov_len := len }] 1 ∧
    ((vlc_recvmsg_i11e env w fd msg flags).1 =
        (if (vlc_poll_i11e env w [{ fd := fd, events := POLLIN, revents := 0 }] (-1)).1 < 0
          then -1 else (env.recvmsg fd msg flags).1.ret) ∧
      (vlc_recvmsg_i11e env w fd msg flags).2.1.trace =
        (vlc_poll_i11e env w [{ fd := fd, events := POLLIN, revents := 0 }] (-1)).2.1.trace ++
          (if (vlc_poll_i11e env w [{ fd := fd, events := POLLIN, revents := 0 }] (-1)).1 < 0
            then [] else [Event.recvmsg fd msg flags])) ∧
    ((vlc_recvfrom_i11e env w fd buf len flags addr addrlen).1 =
        (vlc_recvmsg_i11e env w fd
          { msg_name := addr, msg_namelen := addrlen.getD 0,
            msg_iov := [{ iov_base := buf, iov_len := len }], msg_iovlen := 1 } flags).1 ∧
      (vlc_recvfrom_i11e env w fd buf len flags addr addrlen).2.1 =
        (vlc_recvmsg_i11e env w fd
          { msg_name := addr, msg_namelen := addrlen.getD 0,
            msg_iov := [{ iov_base := buf, iov_len := len }], msg_iovlen := 1 } flags).2.1) ∧
    (vlc_sendmsg_i11e env w fd msg flags =
      if (vlc_poll_i11e env w [{ fd := fd, events := POLLOUT, revents := 0 }] (-1)).1 < 0 then
        (-1, (vlc_poll_i11e env w [{ fd := fd, events := POLLOUT, revents := 0 }] (-1)).2.1)
      else
        ((env.sendmsg fd msg flags).ret,
         ((vlc_poll_i11e env w [{ fd := fd, events := POLLOUT, revents := 0 }] (-1)).2.1.log
           (Event.sendmsg fd msg flags)).set_errno_on_failure
             (env.sendmsg fd msg flags).ret (env.sendmsg fd msg flags).errno)) ∧
    vlc_sendto_i11e env w fd buf len flags addr alen =
      vlc_sendmsg_i11e env w fd
        { msg_name := addr, msg_namelen := alen,
          msg_iov := [{ iov_base := buf, iov_len := len }], msg_iovlen := 1 } flags := by
  refine ⟨rfl, rfl, rfl, ⟨?_, ?_⟩, ⟨rfl, rfl⟩, rfl, rfl⟩
  · by_cases h : (vlc_poll_i11e env w [{ fd := fd, events := POLLIN, revents := 0 }] (-1)).1 < 0
    · simp [vlc_recvmsg_i11e, h]
    · simp [vlc_recvmsg_i11e, h]
  · by_cases h : (vlc_poll_i11e env w [{ fd := fd, events := POLLIN, revents := 0 }] (-1)).1 < 0
    · simp [vlc_recvmsg_i11e, h]
    · by_cases h2 : (env.recvmsg fd msg flags).1.ret < 0 <;>
        simp [vlc_recvmsg_i11e, h, h2, World.set_errno_on_failure, World.log]

/-- C9 fails on `vlc_write_i11e`: for every argument tuple and every state it makes no
call of `poll` at all; its only event is the `writev` on `fd`, whose result it returns.
The sibling `vlc_writev_i11e` on the same one-element vector polls `(fd, POLLOUT)`,
together with the wake descriptor, with timeout -1 before it writes. -/
theorem write_i11e_never_polls :
    (∀ (env : Env) (w : World) (fd : Int) (buf count : Nat),
      poll_calls (events_since w (vlc_write_i11e env w fd buf count).2) = [] ∧
      events_since w (vlc_write_i11e env w fd buf count).2 =
        [Event.writev fd [{ iov_base := buf, iov_len := count }] 1] ∧
      (vlc_write_i11e env w fd buf count).1 =
        (env.writev fd [{ iov_base := buf, iov_len := count }] 1).ret) ∧
    events_since world_init
      (vlc_writev_i11e env_ready world_init 1 [{ iov_base := 100, iov_len := 5 }] 1).2 =
      [Event.eventfd 7, Event.poll [(1, POLLOUT), (7, POLLIN)] 2 (-1), Event.close 7,
       Event.writev 1 [{ iov_base := 100, iov_len := 5 }] 1] := by
  refine ⟨?_, by decide⟩
  intro env w fd buf count
  have h : (vlc_write_i11e env w fd buf count).2.trace =
      w.trace ++ [Event.writev fd [{ iov_base := buf, iov_len := count }] 1] := by
    unfold vlc_write_i11e World.set_errno_on_failure
    simp only [World.log]
    split <;> rfl
  rw [events_since_append w _ _ h]
  exact ⟨rfl, rfl, rfl⟩

/-- C10 fails at the pending world: `vlc_write_i11e(1, buf, 5)` with an interruption
pending returns the 5 of `writev`, its only event is that `writev` on descriptor 1, and
the interruption stays pending. `vlc_writev_i11e` on the one-element vector `{buf, 5}`
in the same state returns -1 with `errno = EINTR`, makes no `writev`, and consumes the
pending interruption. -/
theorem write_i11e_ignores_pending :
    world_pending.attached = true ∧ world_pending.ctx.interrupted = true ∧
    (vlc_write_i11e env_ready world_pending 1 100 5).1 = 5 ∧
    events_since world_pending (vlc_write_i11e env_ready world_pending 1 100 5).2 =
      [Event.writev 1 [{ iov_base := 100, iov_len := 5 }] 1] ∧
    (vlc_write_i11e env_ready world_pending 1 100 5).2.ctx.interrupted = true ∧
    (vlc_writev_i11e env_ready world_pending 1 [{ iov_base := 100, iov_len := 5 }] 1).1 = -1 ∧
    (vlc_writev_i11e env_ready world_pending 1
      [{ iov_base := 100, iov_len := 5 }] 1).2.errno = EINTR ∧
    events_since world_pending
      (vlc_writev_i11e env_ready world_pending 1 [{ iov_base := 100, iov_len := 5 }] 1).2 =
      [Event.eventfd 7, Event.testcancel, Event.close 7] ∧
    (vlc_writev_i11e env_ready world_pending 1
      [{ iov_base := 100, iov_len := 5 }] 1).2.ctx.interrupted = false := by
  decide

/-! ## Descriptors of the wake object -/

theorem open_after_append (fdset : Finset Int) (a b : List Event) :
    open_after fdset (a ++ b) = open_after (open_after fdset a) b := by
  simp [open_after, List.foldl_append]

theorem open_after_cons (fdset : Finset Int) (e : Event) (es : List Event) :
    open_after fdset (e :: es) = open_after (apply_fd_event fdset e) es := rfl

theorem open_after_nil (fdset : Finset Int) : open_after fdset [] = fdset := rfl

theorem open_after_raise_events (fdset : Finset Int) (fd0 fd1 : Int) (k : Nat) :
    open_after fdset (raise_events fd0 fd1 k) = fdset := by
  induction k with
  | zero => rfl
  | succ n ih => simpa [raise_events, open_after_cons, apply_fd_event] using ih

theorem open_after_wake_none (env : Env) (fdset : Finset Int)
    (ha : (wake_object env).1 = none) :
    open_after fdset (wake_object env).2 = fdset := by
  unfold wake_object at ha ⊢
  by_cases h1 : env.have_eventfd = true <;> by_cases h3 : env.eventfd = -1 <;>
    simp [h1, h3] at ha ⊢ <;> simp [ha, open_after_cons, open_after_nil, apply_fd_event]

theorem open_after_wake_some (env : Env) (fdset : Finset Int) (fd0 fd1 : Int)
    (ha : (wake_object env).1 = some (fd0, fd1)) :
    open_after fdset (wake_object env).2 = insert fd1 (insert fd0 fdset) := by
  unfold wake_object at ha ⊢
  by_cases h1 : env.have_eventfd = true <;> by_cases h3 : env.eventfd = -1 <;>
    simp [h1, h3] at ha ⊢ <;>
    simp [ha, open_after_cons, open_after_nil, apply_fd_event, h3]
  obtain ⟨rfl, rfl⟩ := ha
  simp [h3]

theorem open_after_close_events (fdset : Finset Int) (fd0 fd1 : Int)
    (h0 : fd0 ∉ fdset) (h1 : fd1 ∉ fdset) :
    open_after (insert fd1 (insert fd0 fdset)) (close_events fd0 fd1) = fdset := by
  unfold close_events
  by_cases h : fd1 = fd0
  · subst h
    simp [open_after_cons, open_after_nil, apply_fd_event, Finset.erase_insert h1]
  · have h2 : fd1 ∉ insert fd0 fdset := by simp [h, h1]
    simp [h, open_after_cons, open_after_nil, apply_fd_event, Finset.erase_insert h2,
      Finset.erase_insert h0]

/-- C11: `vlc_poll_i11e_inner` over a set `fdset` of open descriptors, the descriptors of
a newly allocated wake object not being open before. On every path on which the call
returns, that is, on which the thread is not cancelled at a cancellation test
(allocation failure, interruption pending on entry, and the armed path with any result of
`poll`, negative included, and any number of raises), the set of open descriptors after
the call equals `fdset`. When no wake object is allocated nothing is closed; otherwise
the closes of the call are `fd[1]` then `fd[0]` when the ends differ (pipe) and the single
descriptor when they are equal (eventfd), so each descriptor of the wake object is closed
exactly once. -/
theorem inner_restores_open_descriptors (env : Env) (w : World) (fds : List pollfd)
    (timeout : Int) (fdset : Finset Int)
    (h_fresh : ∀ fd0 fd1, (wake_object env).1 = some (fd0, fd1) → fd0 ∉ fdset ∧ fd1 ∉ fdset)
    (h_returns : (vlc_poll_i11e_inner env w fds timeout).2.1.cancelled = false) :
    open_after fdset (events_since w (vlc_poll_i11e_inner env w fds timeout).2.1) = fdset ∧
    ((wake_object env).1 = none →
      closes (events_since w (vlc_poll_i11e_inner env w fds timeout).2.1) = []) ∧
    (∀ fd0 fd1, (wake_object env).1 = some (fd0, fd1) →
      closes (events_since w (vlc_poll_i11e_inner env w fds timeout).2.1) =
        (if fd1 ≠ fd0 then [fd1, fd0] else [fd0]) ∧
      (closes (events_since w (vlc_poll_i11e_inner env w fds timeout).2.1)).count fd0 = 1 ∧
      (closes (events_since w (vlc_poll_i11e_inner env w fds timeout).2.1)).count fd1 = 1) := by
  have hw := wake_object_events env
  cases ha : (wake_object env).1 with
  | none =>
    rw [inner_alloc_failed env w fds timeout ha]
    refine ⟨?_, fun _ => ?_, fun _ _ h => by simp at h⟩
    · simp [events_since, open_after_append, open_after_wake_none env fdset ha,
        open_after_cons, open_after_nil, apply_fd_event]
    · simp [events_since, closes_append, hw.2.2, closes]
  | some pr =>
    obtain ⟨a0, a1⟩ := pr
    obtain ⟨hf0, hf1⟩ := h_fresh a0 a1 ha
    have hcount : (if a1 ≠ a0 then [a1, a0] else [a0]).count a0 = 1 ∧
        (if a1 ≠ a0 then [a1, a0] else [a0]).count a1 = 1 := by
      by_cases h : a1 = a0
      · subst h; simp
      · have h' : ¬ a0 = a1 := fun e => h e.symm
        simp [h, h', List.count_cons]
    have hevents : ∃ mid, events_since w (vlc_poll_i11e_inner env w fds timeout).2.1 =
        (wake_object env).2 ++ (mid ++ close_events a0 a1) ∧
        (∀ s, open_after s mid = s) ∧ closes mid = [] := by
      cases hp : w.ctx.interrupted with
      | true =>
        have hret := h_returns
        rw [inner_pending env w fds timeout a0 a1 ha hp] at hret ⊢
        have hnc : env.cancel_at_testcancel = false := by
          cases hc : env.cancel_at_testcancel with
          | false => rfl
          | true => simp [hc] at hret
        exact ⟨[Event.testcancel], by simp [events_since, hnc], fun s => rfl, rfl⟩
      | false =>
        rw [inner_armed env w fds timeout a0 a1 ha hp]
        generalize env.poll (extended_array fds a0) ((fds.length + 1) % 2 ^ 32) timeout = res
        refine ⟨Event.poll (extended_array fds a0) ((fds.length + 1) % 2 ^ 32) timeout ::
          (raise_events a0 a1 env.raises ++
            (if res.ret > 0 ∧ res.revents fds.length ≠ 0 then [Event.read a0 8] else [])),
          by simp [events_since], fun s => ?_, ?_⟩
        · rw [open_after_cons, open_after_append, open_after_raise_events]
          split <;> rfl
        · have hr := (raise_events_observed a0 a1 env.raises).2.2
          split <;> simp [closes, closes_append, hr]
    obtain ⟨mid, he, hmid, hcl⟩ := hevents
    rw [he]
    refine ⟨?_, fun h => by simp at h, fun fd0 fd1 h => ?_⟩
    · rw [open_after_append, open_after_append, open_after_wake_some env fdset a0 a1 ha,
        hmid, open_after_close_events fdset a0 a1 hf0 hf1]
    · have hpair : a0 = fd0 ∧ a1 = fd1 := by simpa using h
      obtain ⟨rfl, rfl⟩ := hpair
      have hcloses : closes ((wake_object env).2 ++ (mid ++ close_events a0 a1)) =
          (if a1 ≠ a0 then [a1, a0] else [a0]) := by
        rw [closes_append, closes_append, hw.2.2, hcl, closes_close_events]
        rfl
      rw [hcloses]
      exact ⟨rfl, hcount.1, hcount.2⟩

/-- Instance of C11: a pipe on descriptors 8 and 9 with descriptors 0 to 3 open, one
raise landing during `poll`. -/
theorem inner_restores_open_descriptors_witness :
    (∀ fd0 fd1,
      (wake_object { env_ready with have_eventfd := false, raises := 1 }).1 = some (fd0, fd1) →
      fd0 ∉ ({0, 1, 2, 3} : Finset Int) ∧ fd1 ∉ ({0, 1, 2, 3} : Finset Int)) ∧
    open_after {0, 1, 2, 3} (events_since world_init
      (vlc_poll_i11e_inner { env_ready with have_eventfd := false, raises := 1 } world_init
        [{ fd := 3, events := POLLIN, revents := 0 }] (-1)).2.1) = {0, 1, 2, 3} ∧
    (vlc_poll_i11e_inner { env_ready with have_eventfd := false, raises := 1 } world_init
      [{ fd := 3, events := POLLIN, revents := 0 }] (-1)).2.1.cancelled = false ∧
    closes (events_since world_init
      (vlc_poll_i11e_inner { env_ready with have_eventfd := false, raises := 1 } world_init
        [{ fd := 3, events := POLLIN, revents := 0 }] (-1)).2.1) = [9, 8] :=
  have hfresh : ∀ fd0 fd1,
      (wake_object { env_ready with have_eventfd := false, raises := 1 }).1 = some (fd0, fd1) →
      fd0 ∉ ({0, 1, 2, 3} : Finset Int) ∧ fd1 ∉ ({0, 1, 2, 3} : Finset Int) := by
    intro fd0 fd1 h
    have hp : (8 : Int) = fd0 ∧ (9 : Int) = fd1 := by
      simpa [wake_object, env_ready] using h
    obtain ⟨rfl, rfl⟩ := hp
    decide
  ⟨hfresh,
   (inner_restores_open_descriptors { env_ready with have_eventfd := false, raises := 1 }
     world_init [{ fd := 3, events := POLLIN, revents := 0 }] (-1) {0, 1, 2, 3} hfresh
       (by decide)).1,
   by decide,
   ((inner_restores_open_descriptors { env_ready with have_eventfd := false, raises := 1 }
     world_init [{ fd := 3, events := POLLIN, revents := 0 }] (-1) {0, 1, 2, 3} hfresh
       (by decide)).2.2 8 9 rfl).1⟩

/-! ## Thread binding and process-wide state -/

/-- C12: `vlc_interrupt_set(newctx)`, for every process state and every `newctx`, `NULL`
included: it returns the value the calling thread had in the slot and stores `newctx`
there; no context changes (so no pending flag and no hook does), nor do the counter, the
slot or the alive contexts. The push/pop pair `old = set(new); r = set(old)` gives
`r = new` and leaves the thread with the binding it had before the push. -/
theorem set_swaps_binding (p : Process) (newctx : Option Nat) :
    (vlc_interrupt_set p newctx).1 = p.threadvar ∧
    (vlc_interrupt_set p newctx).2.threadvar = newctx ∧
    (∀ a, ((vlc_interrupt_set p newctx).2.ctx a).interrupted = (p.ctx a).interrupted ∧
          ((vlc_interrupt_set p newctx).2.ctx a).callback = (p.ctx a).callback ∧
          ((vlc_interrupt_set p newctx).2.ctx a).data = (p.ctx a).data) ∧
    (vlc_interrupt_set p newctx).2.vlc_interrupt_refs = p.vlc_interrupt_refs ∧
    (vlc_interrupt_set p newctx).2.slot_exists = p.slot_exists ∧
    (vlc_interrupt_set p newctx).2.alive = p.alive ∧
    (vlc_interrupt_set (vlc_interrupt_set p newctx).2 (vlc_interrupt_set p newctx).1).1 =
      newctx ∧
    (vlc_interrupt_set (vlc_interrupt_set p newctx).2
      (vlc_interrupt_set p newctx).1).2.threadvar = p.threadvar ∧
    (vlc_interrupt_set (vlc_interrupt_set p newctx).2
      (vlc_interrupt_set p newctx).1).2.ctx = p.ctx :=
  ⟨rfl, rfl, fun _ => ⟨rfl, rfl, rfl⟩, rfl, rfl, rfl, rfl, rfl, rfl⟩

/-- The `attached` fields after a push/pop pair whose first call meets the asserts of
`vlc_interrupt_set`: they are as before the push, and the second call meets the asserts
too. -/
theorem set_push_pop_attached (p : Process) (newctx : Option Nat)
    (h : set_assert p newctx = true) :
    set_assert (vlc_interrupt_set p newctx).2 (vlc_interrupt_set p newctx).1 = true ∧
    (vlc_interrupt_set (vlc_interrupt_set p newctx).2
      (vlc_interrupt_set p newctx).1).2.attached = p.attached := by
  cases hold : p.threadvar with
  | none =>
    cases newctx with
    | none => simp [vlc_interrupt_set, set_assert, hold]
    | some b =>
      simp [set_assert, hold] at h
      refine ⟨by simp [vlc_interrupt_set, set_assert, hold], ?_⟩
      funext x
      by_cases hx : x = b <;> simp [vlc_interrupt_set, hold, Function.update, hx, h]
  | some a =>
    cases newctx with
    | none =>
      simp [set_assert, hold] at h
      refine ⟨by simp [vlc_interrupt_set, set_assert, hold], ?_⟩
      funext x
      by_cases hx : x = a <;> simp [vlc_interrupt_set, hold, Function.update, hx, h]
    | some b =>
      simp [set_assert, hold] at h
      by_cases hab : a = b
      · subst hab
        refine ⟨by simp [vlc_interrupt_set, set_assert, hold], ?_⟩
        funext x
        by_cases hx : x = a <;> simp [vlc_interrupt_set, hold, Function.update, hx, h.1]
      · have hb : p.attached b = false := by
          rcases h.2 with h2 | h2
          · exact absurd h2 hab
          · exact h2
        have hba : ¬ b = a := fun e => hab e.symm
        refine ⟨by simp [vlc_interrupt_set, set_assert, hold, hab, hba], ?_⟩
        funext x
        by_cases hx : x = a
        · subst hx
          simp [vlc_interrupt_set, hold, Function.update, hab, h.1]
        · by_cases hxb : x = b
          · subst hxb
            simp [vlc_interrupt_set, hold, Function.update, hx, hb]
          · simp [vlc_interrupt_set, hold, Function.update, hx, hxb]

theorem init_eq (p : Process) (addr : Nat) (ha : init_assert p = true) :
    vlc_interrupt_init p addr =
      { vlc_interrupt_refs := p.vlc_interrupt_refs + 1,
        slot_exists := if p.vlc_interrupt_refs = 0 then true else p.slot_exists,
        threadvar := p.threadvar,
        ctx := Function.update p.ctx addr
          { interrupted := false, callback := none, data := (p.ctx addr).data },
        attached := Function.update p.attached addr false,
        alive := addr :: p.alive,
        slot_calls := p.slot_calls ++
          (if p.vlc_interrupt_refs = 0 then [SlotCall.threadvar_create] else []) } := by
  have hlt : p.vlc_interrupt_refs < UINT_MAX := by simpa [init_assert] using ha
  have hmod : (p.vlc_interrupt_refs + 1) % 2 ^ 32 = p.vlc_interrupt_refs + 1 := by
    unfold UINT_MAX at hlt
    omega
  unfold vlc_interrupt_init
  simp only [hmod]
  split <;> simp

theorem deinit_eq (p : Process) (addr : Nat) (hpos : 0 < p.vlc_interrupt_refs)
    (hle : p.vlc_interrupt_refs ≤ UINT_MAX) :
    vlc_interrupt_deinit p addr =
      { vlc_interrupt_refs := p.vlc_interrupt_refs - 1,
        slot_exists := if p.vlc_interrupt_refs = 1 then false else p.slot_exists,
        threadvar := if p.vlc_interrupt_refs = 1 then none else p.threadvar,
        ctx := p.ctx,
        attached := p.attached,
        alive := p.alive.erase addr,
        slot_calls := p.slot_calls ++
          (if p.vlc_interrupt_refs = 1 then [SlotCall.threadvar_delete] else []) } := by
  have hmod : (p.vlc_interrupt_refs + 2 ^ 32 - 1) % 2 ^ 32 = p.vlc_interrupt_refs - 1 := by
    unfold UINT_MAX at hle
    omega
  have hiff : p.vlc_interrupt_refs - 1 = 0 ↔ p.vlc_interrupt_refs = 1 := by omega
  unfold vlc_interrupt_deinit
  simp only [hmod, hiff]
  split <;> simp

theorem life_run_cons (p : Process) (c : LifeCall) (cs : List LifeCall) :
    life_run p (c :: cs) = life_run (life_step p c) cs := rfl

/-- Outside its assert, at `vlc_interrupt_refs = UINT_MAX`, `vlc_interrupt_init` wraps
the counter to 0 while one more context is alive. -/
theorem init_wraps (p : Process) (addr : Nat) (h : p.vlc_interrupt_refs = UINT_MAX) :
    init_assert p = false ∧
    (vlc_interrupt_init p addr).vlc_interrupt_refs = 0 ∧
    (vlc_interrupt_init p addr).alive.length = p.alive.length + 1 := by
  have hne : ¬ p.vlc_interrupt_refs = 0 := by rw [h]; decide
  have hmod : (p.vlc_interrupt_refs + 1) % 2 ^ 32 = 0 := by rw [h]; decide
  refine ⟨by simp [init_assert, h], ?_, ?_⟩
  · unfold vlc_interrupt_init
    simp only [hmod]
  · unfold vlc_interrupt_init
    simp only [hne, if_false, List.length_cons]

theorem life_run_snoc (p : Process) (calls : List LifeCall) (c : LifeCall) :
    life_run p (calls ++ [c]) = life_step (life_run p calls) c := by
  simp [life_run, List.foldl_append]

theorem alive_after_snoc (calls : List LifeCall) (c : LifeCall) :
    alive_after (calls ++ [c]) = alive_step (alive_after calls) c := by
  simp [alive_after, List.foldl_append]

theorem calls_well_formed_append (alive : Finset Nat) (calls : List LifeCall)
    (c : LifeCall) :
    calls_well_formed alive (calls ++ [c]) =
      (calls_well_formed alive calls &&
        call_well_formed (calls.foldl alive_step alive) c) := by
  induction calls generalizing alive with
  | nil => cases c <;> simp [calls_well_formed, call_well_formed]
  | cons d ds ih =>
    cases d <;> simp [calls_well_formed, ih, alive_step, Bool.and_assoc]

theorem process_start_agrees : process_start.agrees ∅ := by
  simp [Process.agrees, process_start]

theorem init_agrees (p : Process) (alive : Finset Nat) (addr : Nat) (hp : p.agrees alive)
    (hnew : addr ∉ alive) (hroom : alive.card < UINT_MAX) :
    (vlc_interrupt_init p addr).agrees (insert addr alive) := by
  obtain ⟨h1, _, h3, h4⟩ := hp
  have ha : init_assert p = true := by simp [init_assert, h1, hroom]
  rw [init_eq p addr ha]
  have hcard : (insert addr alive).card = alive.card + 1 := Finset.card_insert_of_not_mem hnew
  refine ⟨by show p.vlc_interrupt_refs + 1 = (insert addr alive).card; omega,
    by show p.vlc_interrupt_refs + 1 ≤ UINT_MAX; omega, ?_, ?_⟩
  · show ((if p.vlc_interrupt_refs = 0 then true else p.slot_exists) = true ↔
      0 < (insert addr alive).card)
    by_cases h0 : p.vlc_interrupt_refs = 0
    · rw [if_pos h0]
      constructor
      · intro _
        omega
      · intro _
        rfl
    · rw [if_neg h0]
      constructor
      · intro _
        omega
      · intro _
        exact h3.2 (by omega)
  · intro a hmem
    show ((Function.update p.ctx addr
        { interrupted := false, callback := none, data := (p.ctx addr).data }) a).callback =
          none ∧ (Function.update p.attached addr false) a = false
    by_cases hx : a = addr
    · subst hx
      simp
    · have hin : a ∈ alive := by
        rcases Finset.mem_insert.mp hmem with h | h
        · exact absurd h hx
        · exact h
      simp [Function.update, hx, h4 a hin]

theorem deinit_agrees (p : Process) (alive : Finset Nat) (addr : Nat) (hp : p.agrees alive)
    (hmem : addr ∈ alive) : (vlc_interrupt_deinit p addr).agrees (alive.erase addr) := by
  obtain ⟨h1, h2, h3, h4⟩ := hp
  have hpos : 0 < alive.card := Finset.card_pos.mpr ⟨addr, hmem⟩
  have hcard : (alive.erase addr).card = alive.card - 1 := Finset.card_erase_of_mem hmem
  rw [deinit_eq p addr (by omega) h2]
  refine ⟨by show p.vlc_interrupt_refs - 1 = (alive.erase addr).card; omega,
    by show p.vlc_interrupt_refs - 1 ≤ UINT_MAX; omega, ?_, ?_⟩
  · show ((if p.vlc_interrupt_refs = 1 then false else p.slot_exists) = true ↔
      0 < (alive.erase addr).card)
    by_cases h0 : p.vlc_interrupt_refs = 1
    · rw [if_pos h0]
      constructor
      · intro hft
        cases hft
      · intro _
        omega
    · rw [if_neg h0]
      constructor
      · intro _
        omega
      · intro _
        exact h3.2 hpos
  · intro a ha
    exact h4 a (Finset.mem_of_mem_erase ha)

theorem life_run_agrees (p : Process) (alive : Finset Nat) (calls : List LifeCall)
    (hp : p.agrees alive) (h : calls_well_formed alive calls = true) :
    (life_run p calls).agrees (calls.foldl alive_step alive) := by
  induction calls generalizing p alive with
  | nil => exact hp
  | cons c cs ih =>
    cases c with
    | init addr =>
      rw [calls_well_formed, Bool.and_eq_true, Bool.and_eq_true] at h
      rw [life_run_cons, life_step, List.foldl_cons, alive_step]
      exact ih (vlc_interrupt_init p addr) (insert addr alive)
        (init_agrees p alive addr hp (of_decide_eq_true h.1.1) (of_decide_eq_true h.1.2)) h.2
    | deinit addr =>
      rw [calls_well_formed, Bool.and_eq_true] at h
      rw [life_run_cons, life_step, List.foldl_cons, alive_step]
      exact ih (vlc_interrupt_deinit p addr) (alive.erase addr)
        (deinit_agrees p alive addr hp (of_decide_eq_true h.1)) h.2

theorem alive_after_init_many (n : Nat) : alive_after (init_many n) = Finset.range n := by
  induction n with
  | zero => rfl
  | succ k ih =>
    unfold init_many at ih ⊢
    rw [List.range_succ, List.map_append, List.map_singleton, alive_after_snoc, ih,
      alive_step, Finset.range_succ]

theorem deinit_only_alive_init_many (alive : Finset Nat) (l : List Nat) :
    deinit_only_alive alive (l.map LifeCall.init) = true := by
  induction l generalizing alive with
  | nil => rfl
  | cons a as ih =>
    rw [List.map_cons, deinit_only_alive]
    exact ih _

theorem life_run_init_many (n : Nat) :
    (life_run process_start (init_many n)).vlc_interrupt_refs = n % 2 ^ 32 ∧
    (0 < n → (life_run process_start (init_many n)).slot_exists = true) := by
  induction n with
  | zero => exact ⟨rfl, fun h => absurd h (by decide)⟩
  | succ k ih =>
    unfold init_many at ih ⊢
    rw [List.range_succ, List.map_append, List.map_singleton, life_run_snoc, life_step]
    obtain ⟨h1, h2⟩ := ih
    constructor
    · show ((life_run process_start (List.map LifeCall.init (List.range k))).vlc_interrupt_refs
        + 1) % 2 ^ 32 = (k + 1) % 2 ^ 32
      rw [h1]
      omega
    · intro _
      unfold vlc_interrupt_init
      by_cases h0 : (life_run process_start
          (List.map LifeCall.init (List.range k))).vlc_interrupt_refs = 0
      · simp [h0]
      · have hk : 0 < k := by
          rcases Nat.eq_zero_or_pos k with hz | hpos
          · subst hz
            exact absurd rfl h0
          · exact hpos
        simp [h0, h2 hk]

/-- C13, as amended: in every sequence of `vlc_interrupt_init` and `vlc_interrupt_deinit`
calls from the initial process state in which `vlc_interrupt_deinit` is only applied to
an alive context and `vlc_interrupt_init` only to a context that is not alive, while
fewer than `UINT_MAX` contexts are alive, after each call `c`: the counter equals the
number of alive contexts, the alive contexts being read off the calls; the slot exists
exactly when the counter is above 0, that is, when a context is alive; the call created
the slot exactly when it is an initialisation with no context alive before, deleted it
exactly when it is a deinitialisation with no context alive after, and made no other slot
call. The asserts of both functions hold at each call. The initial state itself has the
counter at 0 and no slot. -/
theorem refs_counts_alive (calls : List LifeCall) (c : LifeCall)
    (h : calls_well_formed ∅ (calls ++ [c]) = true) :
    process_start.vlc_interrupt_refs = 0 ∧
    process_start.slot_exists = false ∧
    (life_run process_start (calls ++ [c])).vlc_interrupt_refs =
      (alive_after (calls ++ [c])).card ∧
    ((life_run process_start (calls ++ [c])).slot_exists = true ↔
      0 < (life_run process_start (calls ++ [c])).vlc_interrupt_refs) ∧
    ((life_run process_start (calls ++ [c])).slot_exists = true ↔
      (alive_after (calls ++ [c])).Nonempty) ∧
    (life_run process_start (calls ++ [c])).slot_calls =
      (life_run process_start calls).slot_calls ++
        expected_slot_calls (alive_after calls).card (alive_after (calls ++ [c])).card c ∧
    (∀ addr, c = LifeCall.init addr → init_assert (life_run process_start calls) = true) ∧
    (∀ addr, c = LifeCall.deinit addr →
      deinit_assert (life_run process_start calls) addr = true) := by
  have hafter := life_run_agrees process_start ∅ (calls ++ [c]) process_start_agrees h
  rw [calls_well_formed_append, Bool.and_eq_true] at h
  have hbefore := life_run_agrees process_start ∅ calls process_start_agrees h.1
  obtain ⟨a1, _, a3, _⟩ := hafter
  obtain ⟨b1, b2, _, b4⟩ := hbefore
  have hwf : call_well_formed (alive_after calls) c = true := h.2
  have a1' : (life_run process_start (calls ++ [c])).vlc_interrupt_refs =
      (alive_after (calls ++ [c])).card := a1
  have b1' : (life_run process_start calls).vlc_interrupt_refs = (alive_after calls).card := b1
  have a3' : (life_run process_start (calls ++ [c])).slot_exists = true ↔
      0 < (alive_after (calls ++ [c])).card := a3
  refine ⟨rfl, rfl, a1', ?_, ?_, ?_, ?_, ?_⟩
  · rw [a1']
    exact a3'
  · rw [a3']
    exact Finset.card_pos
  · rw [life_run_snoc, alive_after_snoc]
    cases c with
    | init addr =>
      rw [call_well_formed, Bool.and_eq_true] at hwf
      have hroom : (alive_after calls).card < UINT_MAX := of_decide_eq_true hwf.2
      have ha : init_assert (life_run process_start calls) = true := by
        simp [init_assert, b1', hroom]
      rw [life_step, init_eq _ addr ha]
      simp [expected_slot_calls, b1']
    | deinit addr =>
      have hmem : addr ∈ alive_after calls := of_decide_eq_true hwf
      have hpos : 0 < (alive_after calls).card := Finset.card_pos.mpr ⟨addr, hmem⟩
      have hlen : ((alive_after calls).erase addr).card = (alive_after calls).card - 1 :=
        Finset.card_erase_of_mem hmem
      rw [life_step, deinit_eq _ addr (by omega) b2]
      have hiff : (life_run process_start calls).vlc_interrupt_refs = 1 ↔
          ((alive_after calls).erase addr).card = 0 := by omega
      simp only [expected_slot_calls, alive_step, hiff]
  · intro addr hc
    subst hc
    rw [call_well_formed, Bool.and_eq_true] at hwf
    have hroom : (alive_after calls).card < UINT_MAX := of_decide_eq_true hwf.2
    simp [init_assert, b1', hroom]
  · intro addr hc
    subst hc
    have hmem : addr ∈ alive_after calls := of_decide_eq_true hwf
    have hpos : 0 < (alive_after calls).card := Finset.card_pos.mpr ⟨addr, hmem⟩
    have hctx := b4 addr hmem
    simp only [deinit_assert, hctx.1, hctx.2, decide_True, Bool.not_false, Bool.and_self,
      Bool.true_and, decide_eq_true_eq]
    omega

/-- Instance of C13 (amended): two contexts initialised, both deinitialised; the last
call brings the counter back to 0 and deletes the slot. -/
theorem refs_counts_alive_witness :
    calls_well_formed ∅
      ([LifeCall.init 1, LifeCall.init 2, LifeCall.deinit 1] ++ [LifeCall.deinit 2]) = true ∧
    (life_run process_start
      ([LifeCall.init 1, LifeCall.init 2, LifeCall.deinit 1] ++
        [LifeCall.deinit 2])).vlc_interrupt_refs =
      (alive_after
        ([LifeCall.init 1, LifeCall.init 2, LifeCall.deinit 1] ++ [LifeCall.deinit 2])).card ∧
    (life_run process_start
      ([LifeCall.init 1, LifeCall.init 2, LifeCall.deinit 1] ++
        [LifeCall.deinit 2])).slot_calls =
      (life_run process_start
        [LifeCall.init 1, LifeCall.init 2, LifeCall.deinit 1]).slot_calls ++
        expected_slot_calls
          (alive_after [LifeCall.init 1, LifeCall.init 2, LifeCall.deinit 1]).card
          (alive_after
            ([LifeCall.init 1, LifeCall.init 2, LifeCall.deinit 1] ++
              [LifeCall.deinit 2])).card (LifeCall.deinit 2) :=
  ⟨by decide,
   (refs_counts_alive [LifeCall.init 1, LifeCall.init 2, LifeCall.deinit 1]
     (LifeCall.deinit 2) (by decide)).2.2.1,
   (refs_counts_alive [LifeCall.init 1, LifeCall.init 2, LifeCall.deinit 1]
     (LifeCall.deinit 2) (by decide)).2.2.2.2.2.1⟩

/-- C13 as stated fails on two sequences without any deinitialisation. A context
initialised twice is counted twice: the counter is 2 with one context alive. And
`2 ^ 32` initialisations of distinct contexts wrap the counter: it is 0 with
`4294967296` contexts alive and the slot existing. -/
theorem refs_miscounts :
    deinit_only_alive ∅ [LifeCall.init 1, LifeCall.init 1] = true ∧
    (life_run process_start [LifeCall.init 1, LifeCall.init 1]).vlc_interrupt_refs = 2 ∧
    (alive_after [LifeCall.init 1, LifeCall.init 1]).card = 1 ∧
    deinit_only_alive ∅ (init_many 4294967296) = true ∧
    (life_run process_start (init_many 4294967296)).vlc_interrupt_refs = 0 ∧
    (life_run process_start (init_many 4294967296)).slot_exists = true ∧
    (alive_after (init_many 4294967296)).card = 4294967296 :=
  ⟨by decide, by decide, by decide,
   deinit_only_alive_init_many ∅ (List.range 4294967296),
   (life_run_init_many 4294967296).1.trans (by decide),
   (life_run_init_many 4294967296).2 (by decide),
   (congrArg Finset.card (alive_after_init_many 4294967296)).trans (Finset.card_range _)⟩

end Interrupt

namespace ConnMgr

/-! ## Scheme of the held connection -/

theorem reuse_keeps (stream : StreamResult) (mgr : vlc_http_mgr) (req : Nat) :
    (vlc_http_mgr_reuse stream mgr req).2.1.creds = mgr.creds ∧
    ((vlc_http_mgr_reuse stream mgr req).2.1.conn = mgr.conn ∨
      (vlc_http_mgr_reuse stream mgr req).2.1.conn = none) ∧
    opened_on (vlc_http_mgr_reuse stream mgr req).2.2 = mgr.conn.toList := by
  unfold vlc_http_mgr_reuse vlc_http_mgr_find
  cases hc : mgr.conn with
  | none => simp [hc, opened_on]
  | some conn => cases stream <;> simp [hc, opened_on, vlc_http_mgr_release]

theorem opened_on_append (a b : List MgrCall) :
    opened_on (a ++ b) = opened_on a ++ opened_on b := by
  induction a with
  | nil => rfl
  | cons e es ih => cases e <;> simp [opened_on, ih]

theorem reuse_tls_has_creds (stream : StreamResult) (mgr : vlc_http_mgr) (req : Nat)
    (h : mgr.tls_has_creds) : (vlc_http_mgr_reuse stream mgr req).2.1.tls_has_creds := by
  obtain ⟨hcreds, hconn, _⟩ := reuse_keeps stream mgr req
  intro conn hheld hsec
  rw [hcreds]
  rcases hconn with hsame | hnone
  · exact h conn (hsame ▸ hheld) hsec
  · rw [hnone] at hheld
    cases hheld

theorem adopt_transport_failed (env : RequestEnv) (mgr : vlc_http_mgr) (req : Nat)
    (tls : vlc_tls_t) (h2 : Bool) (done : List MgrCall) (hok : env.conn_ok = false) :
    adopt_transport env mgr req tls h2 done =
      (none, mgr, done ++ [MgrCall.conn_create tls h2, MgrCall.tls_close tls]) := by
  simp [adopt_transport, hok]

theorem adopt_transport_created (env : RequestEnv) (mgr : vlc_http_mgr) (req : Nat)
    (tls : vlc_tls_t) (h2 : Bool) (done : List MgrCall) (hok : env.conn_ok = true) :
    adopt_transport env mgr req tls h2 done =
      ((vlc_http_mgr_reuse env.fresh
          { mgr with conn := some { tls := tls, h2 := h2 } } req).1,
       (vlc_http_mgr_reuse env.fresh
          { mgr with conn := some { tls := tls, h2 := h2 } } req).2.1,
       done ++ [MgrCall.conn_create tls h2] ++
         (vlc_http_mgr_reuse env.fresh
            { mgr with conn := some { tls := tls, h2 := h2 } } req).2.2) := by
  simp [adopt_transport, hok]

theorem adopt_transport_spec (env : RequestEnv) (mgr : vlc_http_mgr) (req : Nat)
    (tls : vlc_tls_t) (h2 : Bool) (done : List MgrCall) :
    (adopt_transport env mgr req tls h2 done).2.1.creds = mgr.creds ∧
    ((adopt_transport env mgr req tls h2 done).2.1.conn = mgr.conn ∨
      (adopt_transport env mgr req tls h2 done).2.1.conn = some { tls := tls, h2 := h2 } ∨
      (adopt_transport env mgr req tls h2 done).2.1.conn = none) ∧
    (∀ c ∈ opened_on (adopt_transport env mgr req tls h2 done).2.2,
      c ∈ opened_on done ∨ c.tls = tls) := by
  cases hok : env.conn_ok with
  | false =>
    rw [adopt_transport_failed env mgr req tls h2 done hok]
    refine ⟨rfl, Or.inl rfl, ?_⟩
    intro c hc
    rw [opened_on_append] at hc
    simp only [opened_on, List.append_nil] at hc
    exact Or.inl hc
  | true =>
    rw [adopt_transport_created env mgr req tls h2 done hok]
    obtain ⟨hcreds, hconn, hopen⟩ :=
      reuse_keeps env.fresh { mgr with conn := some { tls := tls, h2 := h2 } } req
    refine ⟨hcreds, ?_, ?_⟩
    · rcases hconn with h | h
      · exact Or.inr (Or.inl h)
      · exact Or.inr (Or.inr h)
    · intro c hc
      rw [opened_on_append, opened_on_append, hopen] at hc
      simp only [opened_on, List.append_nil, Option.toList, List.mem_append,
        List.mem_singleton] at hc
      rcases hc with h | h
      · exact Or.inl h
      · exact Or.inr (by rw [h])

theorem http_connect_plain (env : RequestEnv) (tls : vlc_tls_t)
    (h : vlc_http_connect_i11e env = some tls) : tls.secure = false := by
  unfold vlc_http_connect_i11e at h
  cases hcl : env.clone_ok <;> cases hj : env.joined <;> simp [hcl, hj] at h
  rw [← h]

theorem http_request_guarded (env : RequestEnv) (mgr : vlc_http_mgr) (req : Nat)
    (hg : mgr.creds ≠ none ∧ mgr.conn ≠ none) :
    vlc_http_request env mgr req = (none, mgr, []) := by
  unfold vlc_http_request
  rw [if_pos hg]

theorem http_request_unguarded (env : RequestEnv) (mgr : vlc_http_mgr) (req : Nat)
    (hg : ¬ (mgr.creds ≠ none ∧ mgr.conn ≠ none)) :
    vlc_http_request env mgr req =
      match (vlc_http_mgr_reuse env.held mgr req).1 with
      | some resp =>
        (some resp, (vlc_http_mgr_reuse env.held mgr req).2.1,
          (vlc_http_mgr_reuse env.held mgr req).2.2)
      | none =>
        match vlc_http_connect_i11e env with
        | none =>
          (none, (vlc_http_mgr_reuse env.held mgr req).2.1,
            (vlc_http_mgr_reuse env.held mgr req).2.2 ++ [MgrCall.connect false])
        | some tls =>
          adopt_transport env (vlc_http_mgr_reuse env.held mgr req).2.1 req tls mgr.use_h2c
            ((vlc_http_mgr_reuse env.held mgr req).2.2 ++ [MgrCall.connect false]) := by
  unfold vlc_http_request
  rw [if_neg hg]

/-- A plain HTTP request on a manager whose TLS connections come with credentials is
handed only to connections over a plaintext transport; while the manager holds a
connection over TLS the request returns `NULL` and makes no call; and the manager keeps
the property. -/
theorem http_request_stays_plain (env : RequestEnv) (mgr : vlc_http_mgr) (req : Nat)
    (h : mgr.tls_has_creds) :
    (∀ c ∈ opened_on (vlc_http_request env mgr req).2.2, c.tls.secure = false) ∧
    (∀ held, mgr.conn = some held → held.tls.secure = true →
      vlc_http_request env mgr req = (none, mgr, [])) ∧
    (vlc_http_request env mgr req).2.1.tls_has_creds := by
  by_cases hg : mgr.creds ≠ none ∧ mgr.conn ≠ none
  · rw [http_request_guarded env mgr req hg]
    exact ⟨fun c hc => by simp [opened_on] at hc, fun _ _ _ => rfl, h⟩
  · have hplain : ∀ c, mgr.conn = some c → c.tls.secure = false := by
      intro c hc
      cases hs : c.tls.secure with
      | false => rfl
      | true => exact absurd ⟨h c hc hs, by simp [hc]⟩ hg
    obtain ⟨_, _, ropen⟩ := reuse_keeps env.held mgr req
    have rinv := reuse_tls_has_creds env.held mgr req h
    have ropen_plain : ∀ c ∈ opened_on (vlc_http_mgr_reuse env.held mgr req).2.2,
        c.tls.secure = false := by
      intro c hc
      rw [ropen] at hc
      exact hplain c (by simpa [Option.mem_toList] using hc)
    refine ⟨?_, ?_, ?_⟩
    · rw [http_request_unguarded env mgr req hg]
      cases hr : (vlc_http_mgr_reuse env.held mgr req).1 with
      | some resp => exact ropen_plain
      | none =>
        cases hcn : vlc_http_connect_i11e env with
        | none =>
          intro c hc
          rw [opened_on_append] at hc
          simp only [opened_on, List.append_nil] at hc
          exact ropen_plain c hc
        | some tls =>
          intro c hc
          rcases (adopt_transport_spec env _ req tls mgr.use_h2c _).2.2 c hc with h1 | h1
          · rw [opened_on_append] at h1
            simp only [opened_on, List.append_nil] at h1
            exact ropen_plain c h1
          · rw [h1]
            exact http_connect_plain env tls hcn
    · intro held hc hs
      rw [hplain held hc] at hs
      cases hs
    · rw [http_request_unguarded env mgr req hg]
      cases hr : (vlc_http_mgr_reuse env.held mgr req).1 with
      | some resp => exact rinv
      | none =>
        cases hcn : vlc_http_connect_i11e env with
        | none => exact rinv
        | some tls =>
          obtain ⟨acreds, aconn, _⟩ :=
            adopt_transport_spec env (vlc_http_mgr_reuse env.held mgr req).2.1 req tls
              mgr.use_h2c ((vlc_http_mgr_reuse env.held mgr req).2.2 ++ [MgrCall.connect false])
          intro c hc hs
          rw [acreds]
          rcases aconn with h1 | h1 | h1
          · exact rinv c (h1 ▸ hc) hs
          · rw [h1] at hc
            have hct : c.tls = tls := by
              cases hc
              rfl
            rw [hct, http_connect_plain env tls hcn] at hs
            cases hs
          · rw [h1] at hc
            cases hc

theorem https_request_creds (env : RequestEnv) (mgr : vlc_http_mgr) (req : Nat) :
    (vlc_https_request env mgr req).2.1 = mgr ∨
    (vlc_https_request env mgr req).2.1.creds ≠ none := by
  unfold vlc_https_request
  by_cases hg : mgr.creds = none ∧ mgr.conn ≠ none
  · rw [if_pos hg]
    exact Or.inl rfl
  · rw [if_neg hg]
    have main : ∀ (m1 : vlc_http_mgr) (acts : List MgrCall), m1.creds ≠ none →
        (match (vlc_http_mgr_reuse env.held m1 req).1 with
          | some resp =>
            (some resp, (vlc_http_mgr_reuse env.held m1 req).2.1,
              acts ++ (vlc_http_mgr_reuse env.held m1 req).2.2)
          | none =>
            match vlc_https_connect_i11e env with
            | none =>
              (none, (vlc_http_mgr_reuse env.held m1 req).2.1,
                acts ++ (vlc_http_mgr_reuse env.held m1 req).2.2 ++ [MgrCall.connect true])
            | some (tls, http2) =>
              adopt_transport env (vlc_http_mgr_reuse env.held m1 req).2.1 req tls http2
                (acts ++ (vlc_http_mgr_reuse env.held m1 req).2.2 ++
                  [MgrCall.connect true])).2.1.creds ≠ none := by
      intro m1 acts hm1
      have hk := (reuse_keeps env.held m1 req).1
      cases hr : (vlc_http_mgr_reuse env.held m1 req).1 with
      | some resp =>
        show (vlc_http_mgr_reuse env.held m1 req).2.1.creds ≠ none
        rw [hk]
        exact hm1
      | none =>
        cases hcn : vlc_https_connect_i11e env with
        | none =>
          show (vlc_http_mgr_reuse env.held m1 req).2.1.creds ≠ none
          rw [hk]
          exact hm1
        | some pr =>
          obtain ⟨tls, http2⟩ := pr
          show (adopt_transport env (vlc_http_mgr_reuse env.held m1 req).2.1 req tls http2
            (acts ++ (vlc_http_mgr_reuse env.held m1 req).2.2 ++
              [MgrCall.connect true])).2.1.creds ≠ none
          rw [(adopt_transport_spec env _ req tls http2 _).1, hk]
          exact hm1
    cases hc : mgr.creds with
    | none =>
      cases he : env.creds with
      | none => exact Or.inl (by simp)
      | some c =>
        right
        simpa using main { mgr with creds := some c } [MgrCall.tls_client_create] (by simp)
    | some c0 =>
      right
      simpa [hc] using main mgr [] (by simp [hc])

theorem request_tls_has_creds (env : RequestEnv) (mgr : vlc_http_mgr) (https : Bool)
    (req : Nat) (h : mgr.tls_has_creds) :
    (vlc_http_mgr_request env mgr https req).2.1.tls_has_creds := by
  cases https with
  | true =>
    show (vlc_https_request env mgr req).2.1.tls_has_creds
    rcases https_request_creds env mgr req with he | hne
    · rw [he]
      exact h
    · exact fun _ _ _ => hne
  | false => exact (http_request_stays_plain env mgr req h).2.2

theorem serve_tls_has_creds (mgr : vlc_http_mgr) (requests : List Request)
    (h : mgr.tls_has_creds) : (serve mgr requests).tls_has_creds := by
  induction requests generalizing mgr with
  | nil => exact h
  | cons r rest ih => exact ih _ (request_tls_has_creds r.env mgr r.https r.req h)

/-- The plain HTTP direction of the scheme rule: after every sequence of requests on a
manager made by `vlc_http_mgr_create`, a plain HTTP request is handed only to connections
over a plaintext transport, and while a connection over TLS is held it returns `NULL` and
makes no call. -/
theorem plain_http_never_on_tls (obj jar : Nat) (h2c : Bool) (mgr : vlc_http_mgr)
    (requests : List Request) (env : RequestEnv) (req : Nat)
    (h : vlc_http_mgr_create true obj jar h2c = some mgr) :
    (∀ c ∈ opened_on (vlc_http_mgr_request env (serve mgr requests) false req).2.2,
      c.tls.secure = false) ∧
    (∀ held, (serve mgr requests).conn = some held → held.tls.secure = true →
      vlc_http_mgr_request env (serve mgr requests) false req =
        (none, serve mgr requests, [])) := by
  have hnew : mgr.tls_has_creds := by
    simp only [vlc_http_mgr_create, if_true, Option.some.injEq] at h
    subst h
    intro c hc
    cases hc
  have hs := serve_tls_has_creds mgr requests hnew
  exact ⟨(http_request_stays_plain env _ req hs).1, (http_request_stays_plain env _ req hs).2.1⟩

/-- Instance of `plain_http_never_on_tls`: after an HTTPS request that succeeds, a plain
HTTP request returns `NULL`. -/
theorem plain_http_never_on_tls_witness :
    vlc_http_mgr_create true 0 0 false = some mgr_new ∧
    ∀ held, (serve mgr_new [{ https := true, req := 1, env := env_up }]).conn = some held →
      held.tls.secure = true →
      vlc_http_mgr_request env_up (serve mgr_new [{ https := true, req := 1, env := env_up }])
        false 2 = (none, serve mgr_new [{ https := true, req := 1, env := env_up }], []) :=
  ⟨rfl, (plain_http_never_on_tls 0 0 false mgr_new
    [{ https := true, req := 1, env := env_up }] env_up 2 rfl).2⟩

/-- C14 fails on HTTPS requests. On a manager made by `vlc_http_mgr_create`, an HTTPS
request whose connection attempt fails loads the credentials and leaves no connection; a
plain HTTP request then succeeds and leaves its plaintext connection held. The next HTTPS
request finds the credentials loaded, so the test `creds == NULL && conn != NULL` lets it
through: `vlc_http_stream_open` is handed the HTTPS request on the plaintext connection
and the request returns the response 200, not `NULL`. A plain HTTP request in the same
state is refused, although the held connection is a plaintext one. -/
theorem https_request_on_plaintext_connection :
    vlc_http_mgr_create true 0 0 false = some mgr_new ∧
    (serve mgr_new failed_https_then_http).creds = some 1 ∧
    (serve mgr_new failed_https_then_http).conn =
      some { tls := { secure := false, id := 1 }, h2 := false } ∧
    opened_on
      (vlc_http_mgr_request env_up (serve mgr_new failed_https_then_http) true 3).2.2 =
      [{ tls := { secure := false, id := 1 }, h2 := false }] ∧
    (vlc_http_mgr_request env_up (serve mgr_new failed_https_then_http) true 3).1 = some 200 ∧
    vlc_http_mgr_request env_up (serve mgr_new failed_https_then_http) false 4 =
      (none, serve mgr_new failed_https_then_http, []) := by
  decide

end ConnMgr
